import Mathlib

set_option maxRecDepth 100000

/-!
# Verification of the passage backend database translation layer

Shallow embedding of `apps/passage-backend/src/database.ts` (the
`MessagesDatabase` class): the reaction classifier, the attributed-body
binary text decoder, the timestamp converter, and the relational assembler
(`getConversations`, `getConversation`, `getMessages`,
`getLastMessageForChat`, `getMessageAttachments`, `mapRowToMessage`,
`generateDisplayName`, `formatHandleIdentifier`).

Conventions of the embedding:
* SQLite rows become Lean structures; `NULL`-able columns become `Option`.
* JavaScript truthiness tests (`if (!x)`, `x || y`) are embedded through
  the `jsStr` / `jsNat` / `jsInt` helpers, which send the falsy values
  (`null`, `""`, `0`) to `none`.
* Byte buffers become `List Nat` (one `Nat` per byte).
* The two external library calls inside the decoder
  (`bplistParser.parseBuffer`, which may throw, and `Buffer.toString
  'utf8'`) are parameters of the embedding, collected in `Env` together
  with the optional contacts resolver and the `Date.now()` value.
  A throwing `parseBuffer` is modelled by the parameter returning `none`
  (the TS code catches the exception and falls through).
* SQL `ORDER BY ... DESC` is embedded by `List.insertionSort` on an `Int`
  sort key; SQL `NULL` sorts below every number, which the key `-1`
  reproduces (dates are natural numbers).
* JavaScript number arithmetic in the timestamp conversion is embedded
  exactly: `Math.floor(appleEpoch + date / 1_000_000)` is the natural
  number `(appleEpoch * 1000000 + date) / 1000000`.
-/

namespace Passage

/-- JS truthiness for nullable strings: `null` and `""` are falsy. -/
def jsStr : Option String → Option String
  | none => none
  | some s => if s = "" then none else some s

/-- JS truthiness for nullable numbers: `null` and `0` are falsy. -/
def jsNat : Option Nat → Option Nat
  | none => none
  | some n => if n = 0 then none else some n

/-- JS truthiness for nullable integers: `null` and `0` are falsy. -/
def jsInt : Option Int → Option Int
  | none => none
  | some n => if n = 0 then none else some n

/-! ## Reaction classifier (database.ts lines 10-39) -/

/-- The `ReactionType` union from `packages/shared-types/types.ts`. -/
inductive ReactionType where
  | love | like | dislike | laugh | emphasis | question
  deriving Repr, DecidableEq

/-- `REACTION_TYPE_MAP` (database.ts lines 12-19): the fixed six-entry
record; an absent key reads as `undefined`, i.e. `none`. -/
def REACTION_TYPE_MAP (code : Int) : Option ReactionType :=
  if code = 2000 then some .love
  else if code = 2001 then some .like
  else if code = 2002 then some .dislike
  else if code = 2003 then some .laugh
  else if code = 2004 then some .emphasis
  else if code = 2005 then some .question
  else none

/-- `isReactionMessage` (database.ts lines 22-27). The JS guard
`if (!associatedMessageType) return false` makes both `null` and `0`
return `false`. -/
def isReactionMessage : Option Int → Bool
  | none => false
  | some t =>
    if t = 0 then false
    else (2000 ≤ t && t ≤ 2005) || (3000 ≤ t && t ≤ 3005)

/-- `getReactionType` (database.ts lines 30-34): normalize remove codes
(`>= 3000`) down by 1000, then look up the map (`|| null`). -/
def getReactionType (associatedMessageType : Int) : Option ReactionType :=
  let normalized :=
    if 3000 ≤ associatedMessageType then associatedMessageType - 1000
    else associatedMessageType
  REACTION_TYPE_MAP normalized

/-- `isRemoveReaction` (database.ts lines 37-39). -/
def isRemoveReaction (associatedMessageType : Int) : Bool :=
  3000 ≤ associatedMessageType && associatedMessageType ≤ 3005

/-- `isRemoveReaction` as called on the nullable column value; in JS
`null >= 3000` is `false`, so the `none` case is `false`. -/
def isRemoveReactionOpt : Option Int → Bool
  | none => false
  | some t => isRemoveReaction t

/-- `getReactionType` as called on the nullable column value; in JS
`null >= 3000` is `false` and `REACTION_TYPE_MAP[null]` is `undefined`,
so the `none` case is `none`. -/
def getReactionTypeOpt : Option Int → Option ReactionType
  | none => none
  | some t => getReactionType t

/-! ## Binary text decoder (database.ts lines 52-149) -/

/-- Model of a top-level object coming back from
`bplistParser.parseBuffer`: only the keys the decoder reads are kept
(`NSString`, `NS.string`, and the nested `NSAttributedString` with the
same two keys). -/
structure PAttrString where
  nsString : Option String
  nsDotString : Option String
  deriving Repr, DecidableEq

structure PTopObject where
  nsString : Option String
  nsDotString : Option String
  nsAttributedString : Option PAttrString
  deriving Repr, DecidableEq

/-- The key-priority chain of database.ts lines 68-75: `obj.NSString`,
then `obj['NS.string']`, then the same two keys of
`obj.NSAttributedString`; each guarded by JS truthiness, falling out of
all the `if`s (to the typedstream scan) when none is truthy. -/
def topObjectString (obj : PTopObject) : Option String :=
  match jsStr obj.nsString with
  | some s => some s
  | none =>
    match jsStr obj.nsDotString with
    | some s => some s
    | none =>
      match obj.nsAttributedString with
      | none => none
      | some attrString =>
        match jsStr attrString.nsString with
        | some s => some s
        | none => jsStr attrString.nsDotString

/-- External collaborators of the embedding, passed where TS reaches out
of the translated file: the bplist parser (`none` models a thrown parse
exception), the UTF-8 byte decoder of `Buffer.toString`, the optional
`ContactsResolver` (`resolve` returning `none` models `null`), and the
`Date.now()` wall-clock value. -/
structure Env where
  parse : List Nat → Option (List PTopObject)
  decode : List Nat → String
  resolver : Option (String → Option String)
  now : Nat

/-- The 6-byte ASCII magic `bplist` checked at database.ts lines 56-62. -/
def bplistMagic : List Nat := [0x62, 0x70, 0x6c, 0x69, 0x73, 0x74]

/-- The ASCII marker token `NSString` (database.ts line 84). -/
def nsStringMarker : List Nat :=
  [0x4e, 0x53, 0x53, 0x74, 0x72, 0x69, 0x6e, 0x67]

/-- `Buffer` prefix test: the byte-by-byte comparison of lines 56-62. -/
def listStartsWith : List Nat → List Nat → Bool
  | _, [] => true
  | [], _ :: _ => false
  | a :: as, b :: bs => a = b && listStartsWith as bs

/-- `Buffer.prototype.indexOf` for a byte pattern: index of the first
occurrence, `none` when absent (TS `-1`). -/
def indexOfSub (b pat : List Nat) : Option Nat :=
  match b with
  | [] => if listStartsWith [] pat then some 0 else none
  | _ :: rest =>
    if listStartsWith b pat then some 0
    else (indexOfSub rest pat).map (· + 1)

/-- `attributedBody[i]` under an in-bounds guard. -/
def byteAt (b : List Nat) (i : Nat) : Nat := b.getD i 0

/-- The trailing-garbage strip of line 138:
`.replace(/[\x00-\x1f\x80-\x9f]+$/, '')`. -/
def isGarbageByte (c : Char) : Bool :=
  c.toNat ≤ 0x1f || (0x80 ≤ c.toNat && c.toNat ≤ 0x9f)

def rstripGarbage (s : String) : String :=
  ((s.toList.reverse.dropWhile isGarbageByte).reverse).asString

/-- `cleaned` of line 138: strip trailing garbage, then `.trim()`. -/
def cleanupText (s : String) : String := (rstripGarbage s).trim

/-- The control-character test of line 141: `/^[\x00-\x1f]*$/`. -/
def isAllControl (s : String) : Bool := s.toList.all (fun c => c.toNat ≤ 0x1f)

/-- The typedstream fallback scan (database.ts lines 82-146): find the
`NSString` marker, skip the fixed 4-byte header, skip an optional `0x2b`
type tag, parse a one- or multi-byte length, slice that many bytes,
UTF-8-decode, clean, and validate. -/
def typedstreamScan (decode : List Nat → String) (b : List Nat) :
    Option String :=
  match indexOfSub b nsStringMarker with
  | none => none
  | some markerIndex =>
    let offset0 := markerIndex + nsStringMarker.length + 4
    let offset1 :=
      if offset0 < b.length && byteAt b offset0 = 0x2b then offset0 + 1
      else offset0
    if offset1 < b.length then
      let lenOff : Nat × Nat :=
        if 0x80 ≤ byteAt b offset1 then
          let extraBytes := byteAt b offset1 - 0x80
          let o := offset1 + 1
          if extraBytes = 1 && o < b.length then
            let textLength := byteAt b o
            let o := o + 1
            let o := if o < b.length && byteAt b o = 0 then o + 1 else o
            (textLength, o)
          else if extraBytes = 2 && o + 1 < b.length then
            let textLength := byteAt b o * 256 + byteAt b (o + 1)
            let o := o + 2
            let o := if o < b.length && byteAt b o = 0 then o + 1 else o
            (textLength, o)
          else (0, o)
        else (byteAt b offset1, offset1 + 1)
      let textLength := lenOff.1
      let offset2 := lenOff.2
      if 0 < textLength && offset2 + textLength ≤ b.length then
        let textBuffer := (b.drop offset2).take textLength
        let cleaned := cleanupText (decode textBuffer)
        if 0 < cleaned.length && !(isAllControl cleaned) then some cleaned
        else none
      else none
    else none

/-- `extractTextFromAttributedBody` (database.ts lines 52-149): null or
short buffer gives null; a buffer with the `bplist` magic is parsed with
the external parser (exceptions caught) and searched for the known keys;
otherwise, or when that path yields nothing, the typedstream scan runs. -/
def extractTextFromAttributedBody (env : Env) (attributedBody : Option (List Nat)) :
    Option String :=
  match attributedBody with
  | none => none
  | some b =>
    if b.length < 8 then none
    else
      let isBplist := decide (6 ≤ b.length) && listStartsWith b bplistMagic
      let fromBplist : Option String :=
        if isBplist then
          match env.parse b with
          | none => none
          | some parsed =>
            match parsed.head? with
            | none => none
            | some obj => topObjectString obj
        else none
      match fromBplist with
      | some s => some s
      | none => typedstreamScan env.decode b

/-! ## Domain model (packages/shared-types/types.ts) -/

/-- `Contact` (types.ts lines 2-9). -/
structure Contact where
  id : String
  displayName : String
  handleIdentifier : String
  phoneNumber : Option String
  email : Option String
  isMe : Bool
  deriving Repr, DecidableEq

/-- `Reaction` (types.ts lines 12-18); the optional `emoji` key is never
set by the backend and is omitted. -/
structure Reaction where
  type : ReactionType
  senderId : String
  senderName : String
  isFromMe : Bool
  deriving Repr, DecidableEq

/-- `Attachment` (types.ts lines 42-52). -/
structure Attachment where
  id : String
  messageId : String
  filename : String
  mimeType : String
  totalBytes : Nat
  transferName : String
  filePath : String
  isSticker : Bool
  hideAttachment : Bool
  deriving Repr, DecidableEq

/-- `Message` (types.ts lines 23-39). The declared type of `text` is
`string | null`, embedded as `Option String`. -/
structure Message where
  id : String
  conversationId : String
  text : Option String
  senderId : String
  senderName : String
  timestamp : Nat
  isFromMe : Bool
  isRead : Bool
  isSent : Bool
  isDelivered : Bool
  attachments : List Attachment
  reactions : List Reaction
  associatedMessageGuid : Option String
  associatedMessageType : Option Int
  expressiveSendStyleId : Option String
  deriving Repr, DecidableEq

/-- `Conversation` (types.ts lines 55-63). -/
structure Conversation where
  id : String
  displayName : String
  participants : List Contact
  lastMessage : Option Message
  unreadCount : Nat
  isGroup : Bool
  groupPhotoPath : Option String
  deriving Repr, DecidableEq

/-! ## Source schema model (the `chat.db` tables read by database.ts) -/

/-- A row of the `handle` table (columns read: `ROWID`, `id`, `service`). -/
structure Handle where
  rowid : Nat
  id : String
  service : String
  deriving Repr, DecidableEq

/-- A row of the `chat` table (columns read: `ROWID`, `chat_identifier`,
`display_name`, `group_id`). -/
structure ChatRow where
  rowid : Nat
  chat_identifier : String
  display_name : Option String
  deriving Repr, DecidableEq

/-- A row of the `message` table, the columns selected at database.ts
lines 248-266. `date` is the raw Apple timestamp (nanoseconds since
2001-01-01), `NULL`-able. -/
structure MessageRow where
  rowid : Nat
  guid : Option String
  text : Option String
  attributedBody : Option (List Nat)
  handle_id : Option Nat
  date : Option Nat
  is_from_me : Bool
  is_read : Bool
  is_sent : Bool
  is_delivered : Bool
  cache_has_attachments : Bool
  associated_message_guid : Option String
  associated_message_type : Option Int
  expressive_send_style_id : Option String
  deriving Repr, DecidableEq

/-- A row of the `attachment` table (columns read at lines 383-390). -/
structure AttachmentRow where
  rowid : Nat
  filename : Option String
  mime_type : Option String
  total_bytes : Option Nat
  transfer_name : Option String
  is_sticker : Bool
  hide_attachment : Bool
  deriving Repr, DecidableEq

/-- The readable state of the source database: the five tables and the
two join tables the queries touch. The join tables are sets of id pairs
(`chat_message_join`, `chat_handle_join`, `message_attachment_join`). -/
structure DB where
  chats : List ChatRow
  messages : List MessageRow
  handles : List Handle
  attachments : List AttachmentRow
  chatMessageJoin : List (Nat × Nat)
  chatHandleJoin : List (Nat × Nat)
  messageAttachmentJoin : List (Nat × Nat)
  deriving Repr, DecidableEq

/-! ## Relational assembler (the `MessagesDatabase` queries) -/

/-- SQL sort key for a `NULL`-able date column: SQLite `NULL` sorts below
every number. -/
def dateKey : Option Nat → Int
  | none => -1
  | some d => d

/-- The join `message m JOIN chat_message_join cmj ON cmj.message_id =
m.ROWID WHERE cmj.chat_id = ?`, shared by every per-chat query. -/
def messagesForChat (db : DB) (chatId : Nat) : List MessageRow :=
  db.messages.filter (fun m => db.chatMessageJoin.contains (chatId, m.rowid))

/-- `ORDER BY m.date DESC` over message rows. -/
def sortByDateDesc (rows : List MessageRow) : List MessageRow :=
  List.insertionSort (fun a b => dateKey b.date ≤ dateKey a.date) rows

/-- SQL `MAX(m.date)` over the rows of one chat: `NULL` dates are
ignored, and the aggregate is `NULL` on an empty set. -/
def maxDate (rows : List MessageRow) : Option Nat :=
  rows.foldl
    (fun acc m =>
      match acc, m.date with
      | none, d => d
      | some a, none => some a
      | some a, some d => some (max a d))
    none

/-- The `LEFT JOIN handle h ON m.handle_id = h.ROWID` column
`h.id AS sender_identifier`. -/
def senderIdentifier (db : DB) (m : MessageRow) : Option String :=
  match m.handle_id with
  | none => none
  | some hid => (db.handles.find? (fun h => h.rowid = hid)).map Handle.id

/-- The Apple reference epoch in Unix milliseconds (database.ts line 414). -/
def appleEpoch : Nat := 978307200000

/-! ### IEEE-754 binary64 model for the timestamp conversion

`appleEpoch + row.date / 1000000` is evaluated by JS in binary64
floating point: the SQLite integer becomes the nearest double, and the
division and the addition each round their exact result to the nearest
double (ties to even). `Math.floor` on a double is exact. The model
below computes these roundings exactly over rational numbers
represented as numerator/denominator pairs of naturals; it covers the
normal range (no overflow or subnormals), which contains every value
this conversion meets for dates below `2^62`. -/

/-- Fuel-driven binary logarithm: `log2F fuel n = ⌊log2 n⌋` whenever
`n ≤ fuel` (the fuel only bounds the recursion depth). -/
def log2F : Nat → Nat → Nat
  | 0, _ => 0
  | fuel + 1, n => if n ≤ 1 then 0 else log2F fuel (n / 2) + 1

/-- `⌊log2 n⌋` for positive `n` (0 at 0). -/
def natLog2 (n : Nat) : Nat := log2F n n

/-- Round the non-negative rational `num / den` (`den ≠ 0`) to the
nearest integer, ties to even. -/
def roundNearestEven (num den : Nat) : Nat :=
  let n := num / den
  let r := num % den
  if 2 * r < den then n
  else if den < 2 * r then n + 1
  else if n % 2 = 0 then n else n + 1

/-- Decide `2^e ≤ num / den` for an integer exponent `e`. -/
def pow2LeRat (num den : Nat) (e : Int) : Bool :=
  if 0 ≤ e then den * 2 ^ e.toNat ≤ num else den ≤ num * 2 ^ (-e).toNat

/-- `⌊log2 (num / den)⌋` for positive `num / den`: the candidate from
the integer logarithms, corrected downward when `2^e0` overshoots. -/
def ratLog2 (num den : Nat) : Int :=
  let e0 : Int := (natLog2 num : Int) - (natLog2 den : Int)
  if pow2LeRat num den e0 then e0 else e0 - 1

/-- `num / den` rescaled by `2^(-k)`, as a numerator/denominator pair
(multiply the denominator for `k ≥ 0`, the numerator otherwise). -/
def scaledPair (num den : Nat) (k : Int) : Nat × Nat :=
  if 0 ≤ k then (num, den * 2 ^ k.toNat) else (num * 2 ^ (-k).toNat, den)

/-- The nearest binary64 value to the non-negative rational
`num / den`, as mantissa and exponent: the result denotes `m * 2^k`
with `2^52 ≤ m ≤ 2^53` for positive input (and `(0, 0)` at zero). -/
def fl64 (num den : Nat) : Nat × Int :=
  if num = 0 then (0, 0)
  else
    let k := ratLog2 num den - 52
    (roundNearestEven (scaledPair num den k).1 (scaledPair num den k).2, k)

/-- The nearest binary64 value to `num / den`, returned as a
numerator/denominator pair of naturals. -/
def fl64R (num den : Nat) : Nat × Nat :=
  match fl64 num den with
  | (m, k) => if 0 ≤ k then (m * 2 ^ k.toNat, 1) else (m, 2 ^ (-k).toNat)

/-- The raw SQLite integer `row.date` read as a JS number (one
rounding). -/
def jsNumberPair (d : Nat) : Nat × Nat := fl64R d 1

/-- `row.date / 1000000` in binary64: the exact quotient of the stage-1
double by the exactly representable `1000000`, rounded once. -/
def jsQuotPair (d : Nat) : Nat × Nat :=
  fl64R (jsNumberPair d).1 ((jsNumberPair d).2 * 1000000)

/-- `appleEpoch + (row.date / 1000000)` in binary64: the exact sum of
the exactly representable epoch and the stage-2 double, rounded once. -/
def jsSumPair (d : Nat) : Nat × Nat :=
  fl64R (appleEpoch * (jsQuotPair d).2 + (jsQuotPair d).1) (jsQuotPair d).2

/-- `Math.floor(appleEpoch + d / 1000000)` exactly as JS computes it for
a raw date `d` (`Math.floor` on a double is exact; the quotient here is
the rational floor). -/
def jsTimestamp (d : Nat) : Nat := (jsSumPair d).1 / (jsSumPair d).2

/-- `formatHandleIdentifier` (database.ts lines 453-475): `Unknown` for a
falsy identifier; the resolver name when present and truthy; emails
as-is; 10- and 11-digit North American numbers formatted; everything else
passed through. -/
def formatHandleIdentifier (resolver : Option (String → Option String))
    (identifier : String) : String :=
  if identifier = "" then "Unknown"
  else
    let resolved : Option String :=
      match resolver with
      | none => none
      | some r => jsStr (r identifier)
    match resolved with
    | some contactName => contactName
    | none =>
      if identifier.toList.contains '@' then identifier
      else
        let cleaned := identifier.toList.filter Char.isDigit
        if cleaned.length = 10 then
          "(" ++ (cleaned.take 3).asString ++ ") "
            ++ ((cleaned.drop 3).take 3).asString ++ "-"
            ++ (cleaned.drop 6).asString
        else if cleaned.length = 11 && cleaned.headD ' ' = '1' then
          "+1 (" ++ ((cleaned.drop 1).take 3).asString ++ ") "
            ++ ((cleaned.drop 4).take 3).asString ++ "-"
            ++ (cleaned.drop 7).asString
        else identifier

/-- `generateDisplayName` (database.ts lines 445-450). -/
def generateDisplayName (participants : List Contact) : String :=
  match participants with
  | [] => "Unknown"
  | [p] => p.displayName
  | [p, q] => p.displayName ++ ", " ++ q.displayName
  | p :: rest => p.displayName ++ " and " ++ toString rest.length ++ " others"

/-- `getChatParticipants` (database.ts lines 221-242). -/
def getChatParticipants (env : Env) (db : DB) (chatId : Nat) : List Contact :=
  (db.handles.filter (fun h => db.chatHandleJoin.contains (chatId, h.rowid))).map
    (fun h =>
      { id := toString h.rowid
        displayName := formatHandleIdentifier env.resolver h.id
        handleIdentifier := h.id
        phoneNumber := if h.service = "SMS" then some h.id else none
        email :=
          if h.service = "iMessage" && h.id.toList.contains '@' then some h.id
          else none
        isMe := false })

/-- `getMessageAttachments` (database.ts lines 381-409). -/
def getMessageAttachments (db : DB) (messageId : Nat) : List Attachment :=
  (db.attachments.filter
      (fun a => db.messageAttachmentJoin.contains (messageId, a.rowid))).map
    (fun a =>
      { id := toString a.rowid
        messageId := toString messageId
        filename := (jsStr a.filename).getD ""
        mimeType := (jsStr a.mime_type).getD ""
        totalBytes := (jsNat a.total_bytes).getD 0
        transferName := (jsStr a.transfer_name).getD ""
        filePath := (jsStr a.filename).getD ""
        isSticker := a.is_sticker
        hideAttachment := a.hide_attachment })

/-- `mapRowToMessage` (database.ts lines 412-442). The timestamp is
`Math.floor(appleEpoch + row.date / 1_000_000)` for a truthy `date` —
evaluated in binary64 floating point as JS does (`jsTimestamp`) — and
`Date.now()` otherwise; the text falls back from the plain column to
the attributed-body decoder to the empty string. -/
def mapRowToMessage (env : Env) (db : DB) (conversationId : String)
    (row : MessageRow) : Message :=
  let timestamp :=
    match jsNat row.date with
    | some d => jsTimestamp d
    | none => env.now
  let attachments :=
    if row.cache_has_attachments then getMessageAttachments db row.rowid
    else []
  let messageText : Option String :=
    match jsStr row.text with
    | some t => some t
    | none =>
      match row.attributedBody with
      | some _ => extractTextFromAttributedBody env row.attributedBody
      | none => none
  { id :=
      match jsStr row.guid with
      | some g => g
      | none => toString row.rowid
    conversationId := conversationId
    text := some (messageText.getD "")
    senderId :=
      if row.is_from_me then "me"
      else
        match jsNat row.handle_id with
        | some h => toString h
        | none => "unknown"
    senderName :=
      if row.is_from_me then "Me"
      else formatHandleIdentifier env.resolver
        ((jsStr (senderIdentifier db row)).getD "Unknown")
    timestamp := timestamp
    isFromMe := row.is_from_me
    isRead := row.is_read
    isSent := row.is_sent
    isDelivered := row.is_delivered
    attachments := attachments
    reactions := []
    associatedMessageGuid := jsStr row.associated_message_guid
    associatedMessageType := jsInt row.associated_message_type
    expressiveSendStyleId := jsStr row.expressive_send_style_id }

/-- The SQL predicate of `getLastMessageForChat` (database.ts line 369):
`associated_message_type IS NULL OR < 2000 OR > 3005`. -/
def lastMessagePred (m : MessageRow) : Bool :=
  match m.associated_message_type with
  | none => true
  | some t => t < 2000 || 3005 < t

/-- `getLastMessageForChat` (database.ts lines 344-378): the newest row
whose association code is absent or outside 2000-3005. -/
def getLastMessageForChat (env : Env) (db : DB) (chatId : Nat) :
    Option Message :=
  match sortByDateDesc ((messagesForChat db chatId).filter lastMessagePred) with
  | [] => none
  | row :: _ => some (mapRowToMessage env db (toString chatId) row)

/-- The `unread_count` correlated subquery of database.ts lines 159-161
and 196-198: `COUNT(*)` of joined rows with `is_read = 0 AND
is_from_me = 0`. -/
def unreadCount (db : DB) (chatId : Nat) : Nat :=
  ((messagesForChat db chatId).filter
      (fun m => !m.is_read && !m.is_from_me)).length

/-- Assembly of one `Conversation` from a `chat` row, shared verbatim by
`getConversations` (lines 172-185) and `getConversation` (lines
206-218). The SQL `COUNT(*)` is never `NULL`, so `row.unread_count || 0`
is the count itself. -/
def buildConversation (env : Env) (db : DB) (c : ChatRow) : Conversation :=
  let participants := getChatParticipants env db c.rowid
  let lastMessage := getLastMessageForChat env db c.rowid
  { id := toString c.rowid
    displayName :=
      match jsStr c.display_name with
      | some n => n
      | none => generateDisplayName participants
    participants := participants
    lastMessage := lastMessage
    unreadCount := unreadCount db c.rowid
    isGroup := decide (2 < participants.length)
    groupPhotoPath := none }

/-- The sort key of `ORDER BY last_message_date DESC` in
`getConversations`: `MAX(m.date)` over all of the chat's joined rows. -/
def chatKey (db : DB) (c : ChatRow) : Int :=
  dateKey (maxDate (messagesForChat db c.rowid))

/-- The `chat` rows kept and ordered by the `getConversations` query:
`WHERE last_message_date IS NOT NULL ORDER BY last_message_date DESC`. -/
def conversationChats (db : DB) : List ChatRow :=
  List.insertionSort (fun a b => chatKey db b ≤ chatKey db a)
    (db.chats.filter (fun c => (maxDate (messagesForChat db c.rowid)).isSome))

/-- `getConversations` (database.ts lines 152-186). -/
def getConversations (env : Env) (db : DB) : List Conversation :=
  (conversationChats db).map (buildConversation env db)

/-- `getConversation` (database.ts lines 189-218): the single `chat` row
with the given `ROWID`, or null. -/
def getConversation (env : Env) (db : DB) (conversationId : Nat) :
    Option Conversation :=
  match db.chats.find? (fun c => c.rowid = conversationId) with
  | none => none
  | some c => some (buildConversation env db c)

/-! ## `getMessages` (database.ts lines 245-341) -/

/-- A character the JS regex `.` matches: anything but the four
ECMAScript line terminators. -/
def notLineTerm (c : Char) : Bool :=
  c.toNat ≠ 0x0a && c.toNat ≠ 0x0d && c.toNat ≠ 0x2028 && c.toNat ≠ 0x2029

/-- The greedy `(.+)` match starting at the head of `l`: the maximal
run of non-line-terminator characters. -/
def dotRun (l : List Char) : List Char := l.takeWhile notLineTerm

/-- `(.+)` at the current position, as the regex engine falls back to
after the optional prefix group fails: `some` iff at least one
character matches. -/
def dotCapture (l : List Char) : Option (List Char) :=
  let cap := dotRun l
  if cap ≠ [] then some cap else none

/-- One match attempt of `/(?:p:\d+\/|bp:)?(.+)/` at the head of `l`:
try the `p:<digits>/` alternative (greedy `\d+` can only end at the
first non-digit, and the capture needs a character `.` matches), then
`bp:`, then the empty prefix. -/
def regexAttempt (l : List Char) : Option (List Char) :=
  match l with
  | 'p' :: ':' :: rest =>
    let ds := rest.takeWhile Char.isDigit
    let afterDigits := rest.dropWhile Char.isDigit
    if ds ≠ [] then
      match afterDigits with
      | '/' :: tail =>
        match dotCapture tail with
        | some cap => some cap
        | none => dotCapture l
      | _ => dotCapture l
    else dotCapture l
  | 'b' :: 'p' :: ':' :: tail =>
    match dotCapture tail with
    | some cap => some cap
    | none => dotCapture l
  | _ => dotCapture l

/-- The regex engine's position scan: attempt a match at each index in
turn, `none` when the whole string fails (every character a line
terminator, or empty). -/
def regexScan : List Char → Option (List Char)
  | [] => none
  | c :: rest =>
    match regexAttempt (c :: rest) with
    | some cap => some cap
    | none => regexScan rest

/-- The parent-guid recovery of database.ts lines 307-311:
`parentGuid.match(/(?:p:\d+\/|bp:)?(.+)/)`, keeping `parentGuid`
unchanged when the regex does not match (the `if (match)` guard). A
leading `p:<digits>/` or `bp:` is stripped when a `.`-matchable
character follows; the capture stops at the first line terminator. -/
def stripParentGuid (s : String) : String :=
  match regexScan s.toList with
  | some cap => cap.asString
  | none => s

/-- One `Reaction` value as built at database.ts lines 316-321. -/
def mkReaction (env : Env) (db : DB) (row : MessageRow)
    (reactionType : ReactionType) : Reaction :=
  { type := reactionType
    senderId :=
      if row.is_from_me then "me"
      else
        match jsNat row.handle_id with
        | some h => toString h
        | none => "unknown"
    senderName :=
      if row.is_from_me then "Me"
      else formatHandleIdentifier env.resolver
        ((jsStr (senderIdentifier db row)).getD "Unknown")
    isFromMe := row.is_from_me }

/-- The JS `Map<string, Reaction[]>` of line 300, as an association list
in key-insertion order. -/
def mapGet (m : List (String × List Reaction)) (k : String) :
    Option (List Reaction) :=
  match m with
  | [] => none
  | (k', v) :: rest => if k' = k then some v else mapGet rest k

def mapSet (m : List (String × List Reaction)) (k : String)
    (v : List Reaction) : List (String × List Reaction) :=
  match m with
  | [] => [(k, v)]
  | (k', v') :: rest =>
    if k' = k then (k, v) :: rest else (k', v') :: mapSet rest k v

/-- One iteration of the reaction-grouping loop (database.ts lines
302-326): skip rows with a falsy association guid, remove-reactions and
unmapped codes; otherwise append the built `Reaction` under the stripped
parent guid. -/
def reactionsMapStep (env : Env) (db : DB)
    (acc : List (String × List Reaction)) (row : MessageRow) :
    List (String × List Reaction) :=
  match row.associated_message_guid with
  | none => acc
  | some g =>
    if g = "" then acc
    else if isRemoveReactionOpt row.associated_message_type then acc
    else
      let parentGuid := stripParentGuid g
      match getReactionTypeOpt row.associated_message_type with
      | none => acc
      | some reactionType =>
        mapSet acc parentGuid
          ((mapGet acc parentGuid).getD [] ++ [mkReaction env db row reactionType])

def buildReactionsMap (env : Env) (db : DB) (rows : List MessageRow) :
    List (String × List Reaction) :=
  rows.foldl (reactionsMapStep env db) []

/-- The row set fetched by the `getMessages` query (lines 247-284): the
chat's rows, optionally constrained to `m.date < before` — the cursor is
guarded by JS truthiness (`if (before)`), so an absent or zero cursor
adds no constraint (SQL `NULL < x` is not true) — newest first,
truncated to `(limit + 1) * 3` rows. -/
def fetchedRows (db : DB) (chatId : Nat) (limit : Nat)
    (before : Option Nat) : List MessageRow :=
  let base := messagesForChat db chatId
  let constrained :=
    match jsNat before with
    | none => base
    | some bv =>
      base.filter (fun m =>
        match m.date with
        | some d => d < bv
        | none => false)
  (sortByDateDesc constrained).take ((limit + 1) * 3)

/-- The reaction partition of the fetched rows (database.ts lines
287-296, the `isReactionMessage` branch). -/
def reactionRowsOf (db : DB) (chatId : Nat) (limit : Nat)
    (before : Option Nat) : List MessageRow :=
  (fetchedRows db chatId limit before).filter
    (fun m => isReactionMessage m.associated_message_type)

/-- The regular-message partition of the fetched rows (the other
branch of the same loop). -/
def messageRowsOf (db : DB) (chatId : Nat) (limit : Nat)
    (before : Option Nat) : List MessageRow :=
  (fetchedRows db chatId limit before).filter
    (fun m => !isReactionMessage m.associated_message_type)

/-- The per-row page assembly of database.ts lines 332-338: map the row
and attach its reactions by raw-guid map lookup (`|| []`). -/
def attachReactions (env : Env) (db : DB)
    (reactionsMap : List (String × List Reaction)) (conversationId : String)
    (row : MessageRow) : Message :=
  let message := mapRowToMessage env db conversationId row
  { message with
      reactions :=
        match row.guid with
        | some g => (mapGet reactionsMap g).getD []
        | none => [] }

/-- `getMessages` (database.ts lines 245-341): partition the fetched rows
into reaction rows and regular rows, group the add-reactions by stripped
parent guid, report `hasMore` when more regular rows were fetched than
the limit, attach each page row its reactions by raw-guid lookup, and
return the page re-reversed into chronological order. -/
def getMessages (env : Env) (db : DB) (conversationId : Nat)
    (limit : Nat) (before : Option Nat) : List Message × Bool :=
  let reactionsMap :=
    buildReactionsMap env db (reactionRowsOf db conversationId limit before)
  let hasMore :=
    decide (limit < (messageRowsOf db conversationId limit before).length)
  let messages :=
    ((messageRowsOf db conversationId limit before).take limit).map
      (attachReactions env db reactionsMap (toString conversationId))
  (messages.reverse, hasMore)

/-! ## Specification-side reformulations used by the claims -/

/-- The message rows of a chat that are not classified as reactions. -/
def nonReactionRows (db : DB) (chatId : Nat) : List MessageRow :=
  (messagesForChat db chatId).filter
    (fun m => !isReactionMessage m.associated_message_type)

/-- The message identifier `mapRowToMessage` assigns to a row:
`row.guid || String(row.message_id)`. -/
def msgRowId (m : MessageRow) : String :=
  match jsStr m.guid with
  | some g => g
  | none => toString m.rowid

/-- A row whose `guid` column is present and non-empty. -/
def guidTruthy (m : MessageRow) : Bool :=
  match m.guid with
  | none => false
  | some g => g ≠ ""

/-- A row whose raw date is present and non-zero. -/
def dateOk (m : MessageRow) : Bool :=
  match m.date with
  | none => false
  | some d => d ≠ 0

/-- Spec-side unread count: the number of messages of the conversation
(rows joined through `chat_message_join`) that are unread and not from
me. -/
def unreadCountSpec (db : DB) (chatId : Nat) : Nat :=
  (db.messages.filter (fun m =>
      db.chatMessageJoin.contains (chatId, m.rowid)
        && (!m.is_read && !m.is_from_me))).length

/-- Spec-side reaction attachment: the `Reaction` contributed to the
message with identifier `targetId` by row `r` — present exactly when `r`
is classified as a reaction, is not a remove-reaction, has a present
non-empty association id which equals `targetId` after stripping a
`p:N/` or `bp:` prefix, and its code maps to a reaction type. -/
def specReactionEntry (env : Env) (db : DB) (targetId : String)
    (r : MessageRow) : Option Reaction :=
  match r.associated_message_guid, r.associated_message_type with
  | some g, some t =>
    if isReactionMessage (some t) && !(g = "") && !isRemoveReaction t
        && (stripParentGuid g = targetId : Bool) then
      match getReactionType t with
      | some reactionType => some (mkReaction env db r reactionType)
      | none => none
    else none
  | _, _ => none

/-- Spec-side reaction list of the message with identifier `targetId`,
collected from `rows` in row order. -/
def specReactionsFor (env : Env) (db : DB) (rows : List MessageRow)
    (targetId : String) : List Reaction :=
  rows.filterMap (specReactionEntry env db targetId)

/-! ## Concrete fixtures for witnesses and counterexamples -/

/-- A plain message row for fixtures. -/
def fixRow (rowid : Nat) (guid : String) (date : Nat) : MessageRow :=
  { rowid := rowid
    guid := some guid
    text := some "hello"
    attributedBody := none
    handle_id := none
    date := some date
    is_from_me := false
    is_read := true
    is_sent := true
    is_delivered := true
    cache_has_attachments := false
    associated_message_guid := none
    associated_message_type := none
    expressive_send_style_id := none }

/-- An add-love-reaction row (`associated_message_type = 2000`) for
fixtures, targeting `target` through a `p:0/` association id. -/
def fixReactionRow (rowid : Nat) (guid : String) (date : Nat)
    (target : String) : MessageRow :=
  { fixRow rowid guid date with
      associated_message_guid := some ("p:0/" ++ target)
      associated_message_type := some 2000 }

/-- A concrete environment for fixtures: a bplist parser that always
throws, a UTF-8 decoder returning the empty string, no contacts
resolver, and a fixed clock. -/
def env0 : Env :=
  { parse := fun _ => none
    decode := fun _ => ""
    resolver := none
    now := 1700000000000 }

/-- Fixture for C1's counterexample: one chat with exactly two regular
messages and five reaction rows that are all newer than both. -/
def cexDB1 : DB :=
  { chats := [⟨1, "chat1", none⟩]
    messages :=
      [fixRow 1 "a" 10000000, fixRow 2 "b" 20000000,
       fixReactionRow 3 "c" 30000000 "b", fixReactionRow 4 "d" 40000000 "b",
       fixReactionRow 5 "e" 50000000 "b", fixReactionRow 6 "f" 60000000 "b",
       fixReactionRow 7 "g" 70000000 "b"]
    handles := []
    attachments := []
    chatMessageJoin := [(1, 1), (1, 2), (1, 3), (1, 4), (1, 5), (1, 6), (1, 7)]
    chatHandleJoin := []
    messageAttachmentJoin := [] }

/-- Fixture for C1's witness: one chat with exactly two regular messages
and no reactions. -/
def wDB1 : DB :=
  { cexDB1 with
      messages := [fixRow 1 "a" 10000000, fixRow 2 "b" 20000000]
      chatMessageJoin := [(1, 1), (1, 2)] }

/-- Fixture for C2's witness, the spec's reaction-folding example: a chat
with message `A` and a later love-reaction `B` targeting `A`. -/
def wDB2 : DB :=
  { cexDB1 with
      messages := [fixRow 1 "A" 10000000, fixReactionRow 2 "B" 20000000 "A"]
      chatMessageJoin := [(1, 1), (1, 2)] }

/-- Fixture for C2's counterexample: a chat whose regular message row
carries an empty-string guid (rowid 5), so the page identifies it as
`"5"`, plus a later love-reaction whose stripped association id is
`"5"`. The reaction lookup keys on the raw guid `""`, so the page entry
gets no reactions although one targets its identifier. -/
def cexDB2 : DB :=
  { cexDB1 with
      messages := [fixRow 5 "" 10000000, fixReactionRow 6 "B" 20000000 "5"]
      chatMessageJoin := [(1, 5), (1, 6)] }

/-- Fixture for C5's counterexample: chat 1 holds an old regular message
and a very recent reaction row; chat 2 holds a regular message between
the two. `getConversations` orders chat 1 first although its last
non-reaction message is older than chat 2's. -/
def cexDB5 : DB :=
  { chats := [⟨1, "chat1", none⟩, ⟨2, "chat2", none⟩]
    messages :=
      [fixRow 1 "g1" 10000000,
       fixReactionRow 2 "g2" 100000000 "g1",
       fixRow 3 "g3" 50000000]
    handles := []
    attachments := []
    chatMessageJoin := [(1, 1), (1, 2), (2, 3)]
    chatHandleJoin := []
    messageAttachmentJoin := [] }

/-- The last-message timestamp a conversation displays (0 when it has
none); C5's ordering claim compares these. -/
def convLastTimestamp (conv : Conversation) : Nat :=
  match conv.lastMessage with
  | some m => m.timestamp
  | none => 0

end Passage

/-! ## Claims C7 and C8 -/

/-- Claim C7: for every byte buffer that does not begin with the 6-byte
ASCII `bplist` magic header and does not contain the ASCII `NSString`
marker token — in particular for a null buffer and for every buffer
shorter than 8 bytes — the binary text decoder returns null. -/
theorem C7_decoder_plain_input_null (env : Passage.Env) :
    Passage.extractTextFromAttributedBody env none = none
    ∧ (∀ b : List Nat,
        Passage.listStartsWith b Passage.bplistMagic = false →
        Passage.indexOfSub b Passage.nsStringMarker = none →
        Passage.extractTextFromAttributedBody env (some b) = none)
    ∧ (∀ b : List Nat, b.length < 8 →
        Passage.extractTextFromAttributedBody env (some b) = none) := by
  refine ⟨rfl, ?_, ?_⟩
  · intro b hmagic hmarker
    simp only [Passage.extractTextFromAttributedBody, hmagic,
      Bool.and_false]
    split
    · rfl
    · simp [Passage.typedstreamScan, hmarker]
  · intro b hlen
    simp [Passage.extractTextFromAttributedBody, if_pos hlen]

/-- Witness for C7: the concrete 9-byte buffer `[1,…,9]` neither begins
with the magic nor contains the marker, and decodes to null; the empty
buffer is shorter than 8 bytes and decodes to null. -/
theorem C7_decoder_plain_input_null_witness :
    Passage.listStartsWith [1, 2, 3, 4, 5, 6, 7, 8, 9] Passage.bplistMagic = false
    ∧ Passage.indexOfSub [1, 2, 3, 4, 5, 6, 7, 8, 9] Passage.nsStringMarker = none
    ∧ ([] : List Nat).length < 8
    ∧ Passage.extractTextFromAttributedBody
        ⟨fun _ => none, fun _ => "", none, 0⟩ (some [1, 2, 3, 4, 5, 6, 7, 8, 9]) = none
    ∧ Passage.extractTextFromAttributedBody
        ⟨fun _ => none, fun _ => "", none, 0⟩ (some []) = none :=
  ⟨by decide, by decide, by decide,
   (C7_decoder_plain_input_null _).2.1 _ (by decide) (by decide),
   (C7_decoder_plain_input_null _).2.2 _ (by decide)⟩

/-- Claim C8: the binary text decoder is total and pure — for every input
it returns a string or null — and a failure of the external bplist parser
(the thrown exception, modelled by the parser returning `none`) is
contained: the result is exactly what the typedstream fallback scan
yields (null or short buffers still give null), never a propagated
error. -/
theorem C8_decoder_total_exception_contained (env : Passage.Env) :
    (∀ body : Option (List Nat),
      Passage.extractTextFromAttributedBody env body = none
      ∨ ∃ s, Passage.extractTextFromAttributedBody env body = some s)
    ∧ (∀ b : List Nat, env.parse b = none →
        Passage.extractTextFromAttributedBody env (some b) =
          if b.length < 8 then none else Passage.typedstreamScan env.decode b) := by
  constructor
  · intro body
    cases h : Passage.extractTextFromAttributedBody env body with
    | none => exact Or.inl rfl
    | some s => exact Or.inr ⟨s, rfl⟩
  · intro b hparse
    by_cases hl : b.length < 8
    · simp [Passage.extractTextFromAttributedBody, hl]
    · simp [Passage.extractTextFromAttributedBody, hl, hparse, ite_self]

/-- Witness for C8: a parser that always throws, applied to a concrete
buffer carrying the magic header; the decoder still returns the fallback
scan's value. -/
theorem C8_decoder_total_exception_contained_witness :
    (⟨fun _ => none, fun _ => "", none, 0⟩ : Passage.Env).parse
        [0x62, 0x70, 0x6c, 0x69, 0x73, 0x74, 0, 0] = none
    ∧ Passage.extractTextFromAttributedBody
        ⟨fun _ => none, fun _ => "", none, 0⟩
        (some [0x62, 0x70, 0x6c, 0x69, 0x73, 0x74, 0, 0]) =
      if ([0x62, 0x70, 0x6c, 0x69, 0x73, 0x74, 0, 0] : List Nat).length < 8
      then none
      else Passage.typedstreamScan (fun _ => "")
        [0x62, 0x70, 0x6c, 0x69, 0x73, 0x74, 0, 0] :=
  ⟨rfl, (C8_decoder_total_exception_contained _).2 _ rfl⟩

/-! ## Claim C4 -/

/-- Claim C4: for every integer code in [2000,2005] or [3000,3005],
`isReactionMessage` is true; for every integer code outside those two
ranges, and for a null code, it is false; for every code in [3000,3005],
`getReactionType code = getReactionType (code - 1000)`; and the type is
given by the fixed six-entry map. -/
theorem C4_reaction_classifier (c : Int) :
    ((2000 ≤ c ∧ c ≤ 2005) ∨ (3000 ≤ c ∧ c ≤ 3005) →
      Passage.isReactionMessage (some c) = true)
    ∧ (¬ ((2000 ≤ c ∧ c ≤ 2005) ∨ (3000 ≤ c ∧ c ≤ 3005)) →
      Passage.isReactionMessage (some c) = false)
    ∧ Passage.isReactionMessage none = false
    ∧ (3000 ≤ c ∧ c ≤ 3005 →
      Passage.getReactionType c = Passage.getReactionType (c - 1000))
    ∧ Passage.getReactionType 2000 = some .love
    ∧ Passage.getReactionType 2001 = some .like
    ∧ Passage.getReactionType 2002 = some .dislike
    ∧ Passage.getReactionType 2003 = some .laugh
    ∧ Passage.getReactionType 2004 = some .emphasis
    ∧ Passage.getReactionType 2005 = some .question := by
  refine ⟨?_, ?_, rfl, ?_, by decide, by decide, by decide, by decide,
    by decide, by decide⟩
  · intro h
    have hc : c ≠ 0 := by omega
    simp only [Passage.isReactionMessage, if_neg hc]
    rcases h with ⟨h1, h2⟩ | ⟨h1, h2⟩ <;>
      simp [decide_eq_true_eq, h1, h2]
  · intro h
    by_cases hc : c = 0
    · simp [Passage.isReactionMessage, hc]
    · simp only [Passage.isReactionMessage, if_neg hc]
      push_neg at h
      simp only [Bool.or_eq_false_iff, Bool.and_eq_false_iff]
      constructor <;> [skip; skip] <;>
        simp only [decide_eq_false_iff_not, not_le] <;> omega
  · rintro ⟨h1, h2⟩
    have e1 : (3000 ≤ c) = True := by simp [h1]
    have e2 : ¬ (3000 ≤ c - 1000) := by omega
    simp [Passage.getReactionType, e1, e2]

/-- Witness for C4: the hypotheses of the conditional conjuncts hold at
concrete codes 2003, 1999 and 3004. -/
theorem C4_reaction_classifier_witness :
    Passage.isReactionMessage (some 2003) = true
    ∧ Passage.isReactionMessage (some 1999) = false
    ∧ Passage.getReactionType 3004 = Passage.getReactionType (3004 - 1000) :=
  ⟨(C4_reaction_classifier 2003).1 (by omega),
   ((C4_reaction_classifier 1999).2.1 (by omega)),
   ((C4_reaction_classifier 3004).2.2.2.1 (by omega))⟩

/-! ## Helper lemmas for the binary64 model -/

theorem Passage.log2F_spec (fuel : Nat) : ∀ n : Nat, 1 ≤ n → n ≤ fuel →
    2 ^ Passage.log2F fuel n ≤ n ∧ n < 2 ^ (Passage.log2F fuel n + 1) := by
  induction fuel with
  | zero => intro n h1 h2; omega
  | succ fuel ih =>
    intro n h1 h2
    by_cases hn : n ≤ 1
    · have hone : n = 1 := by omega
      subst hone
      simp [Passage.log2F]
    · rw [show Passage.log2F (fuel + 1) n
          = Passage.log2F fuel (n / 2) + 1 by
        rw [Passage.log2F, if_neg hn]]
      obtain ⟨hl, hr⟩ := ih (n / 2) (by omega) (by omega)
      have e1 : 2 ^ (Passage.log2F fuel (n / 2) + 1)
          = 2 * 2 ^ Passage.log2F fuel (n / 2) := by
        rw [pow_succ]; ring
      have e2 : 2 ^ (Passage.log2F fuel (n / 2) + 1 + 1)
          = 2 * 2 ^ (Passage.log2F fuel (n / 2) + 1) := by
        rw [pow_succ _ (Passage.log2F fuel (n / 2) + 1)]; ring
      omega

theorem Passage.natLog2_spec (n : Nat) (h : 1 ≤ n) :
    2 ^ Passage.natLog2 n ≤ n ∧ n < 2 ^ (Passage.natLog2 n + 1) :=
  Passage.log2F_spec n n h (le_refl n)

theorem Passage.rne_bounds (num den : Nat) (hd : 0 < den) :
    2 * (den * Passage.roundNearestEven num den) ≤ 2 * num + den
    ∧ 2 * num ≤ 2 * (den * Passage.roundNearestEven num den) + den := by
  have hdm := Nat.div_add_mod num den
  have hmod := Nat.mod_lt num hd
  simp only [Passage.roundNearestEven]
  have e1 : den * (num / den + 1) = den * (num / den) + den := by ring
  split_ifs with h1 h2 h3 <;> omega

theorem Passage.rne_q (num den : Nat) (hd : 0 < den) :
    |((Passage.roundNearestEven num den : ℚ)) - (num : ℚ) / (den : ℚ)| ≤ 1 / 2 := by
  obtain ⟨h1, h2⟩ := Passage.rne_bounds num den hd
  have hd' : (0:ℚ) < den := by exact_mod_cast hd
  have hc1 : (2:ℚ) * (den * Passage.roundNearestEven num den) ≤ 2 * num + den := by
    exact_mod_cast h1
  have hc2 : (2:ℚ) * num ≤ 2 * (den * Passage.roundNearestEven num den) + den := by
    exact_mod_cast h2
  have e : (Passage.roundNearestEven num den : ℚ) - (num : ℚ) / den
      = ((den : ℚ) * Passage.roundNearestEven num den - num) / den := by
    field_simp
    ring
  rw [e, abs_div, abs_of_pos hd', div_le_iff₀ hd']
  rw [abs_le]
  constructor <;> linarith

theorem Passage.rne_tie_eq (num den : Nat) (htie : 2 * (num % den) = den) :
    Passage.roundNearestEven num den
      = if (num / den) % 2 = 0 then num / den else num / den + 1 := by
  unfold Passage.roundNearestEven
  rw [if_neg (by omega), if_neg (by omega)]

theorem Passage.rne_le_of_le (A1 B1 A2 B2 : Nat) (hB1 : 0 < B1) (hB2 : 0 < B2)
    (h : (A1 : ℚ) / B1 ≤ (A2 : ℚ) / B2) :
    Passage.roundNearestEven A1 B1 ≤ Passage.roundNearestEven A2 B2 := by
  by_contra hlt
  push_neg at hlt
  have q1 := Passage.rne_q A1 B1 hB1
  have q2 := Passage.rne_q A2 B2 hB2
  rw [abs_le] at q1 q2
  have hm : (Passage.roundNearestEven A2 B2 : ℚ) + 1
      ≤ Passage.roundNearestEven A1 B1 := by exact_mod_cast hlt
  -- everything collapses to an exact half-tie on both sides
  have hx : (A1 : ℚ) / B1 = (Passage.roundNearestEven A1 B1 : ℚ) - 1 / 2 := by
    linarith
  have hy : (A2 : ℚ) / B2 = (Passage.roundNearestEven A2 B2 : ℚ) + 1 / 2 := by
    linarith
  have hm12 : Passage.roundNearestEven A1 B1
      = Passage.roundNearestEven A2 B2 + 1 := by
    have : (Passage.roundNearestEven A1 B1 : ℚ)
        = (Passage.roundNearestEven A2 B2 : ℚ) + 1 := by linarith
    exact_mod_cast this
  have hB1' : (0:ℚ) < B1 := by exact_mod_cast hB1
  have hB2' : (0:ℚ) < B2 := by exact_mod_cast hB2
  --整 tie equations over the naturals
  have e1 : 2 * A1 + B1 = 2 * (B1 * Passage.roundNearestEven A1 B1) := by
    have : (2 * A1 + B1 : ℚ) = 2 * (B1 * Passage.roundNearestEven A1 B1) := by
      rw [div_eq_iff (ne_of_gt hB1')] at hx
      linarith [hx]
    exact_mod_cast this
  have e2 : 2 * A2 = 2 * (B2 * Passage.roundNearestEven A2 B2) + B2 := by
    have : (2 * A2 : ℚ) = 2 * (B2 * Passage.roundNearestEven A2 B2) + B2 := by
      rw [div_eq_iff (ne_of_gt hB2')] at hy
      linarith [hy]
    exact_mod_cast this
  -- first pair: divisor even, quotient one below the rounded value, tie
  obtain ⟨m1', hm1'⟩ : ∃ m1', Passage.roundNearestEven A1 B1 = m1' + 1 :=
    ⟨Passage.roundNearestEven A2 B2, hm12⟩
  have hB1even : B1 % 2 = 0 := by
    have := e1
    rw [hm1'] at this
    have el : B1 * (m1' + 1) = B1 * m1' + B1 := by ring
    omega
  have hA1 : A1 = B1 * m1' + B1 / 2 := by
    have := e1
    rw [hm1'] at this
    have el : B1 * (m1' + 1) = B1 * m1' + B1 := by ring
    omega
  have hdiv1 : A1 / B1 = m1' := by
    rw [hA1, Nat.mul_add_div hB1]
    have h0 : B1 / 2 / B1 = 0 := Nat.div_eq_of_lt (by omega)
    omega
  have hmod1 : A1 % B1 = B1 / 2 := by
    rw [hA1, Nat.mul_add_mod]
    exact Nat.mod_eq_of_lt (by omega)
  have htie1 : 2 * (A1 % B1) = B1 := by omega
  have hrne1 := Passage.rne_tie_eq A1 B1 htie1
  rw [hdiv1, hm1'] at hrne1
  have hm1odd : m1' % 2 = 1 := by
    by_cases hp : m1' % 2 = 0
    · rw [if_pos hp] at hrne1; omega
    · omega
  -- second pair: same analysis, tie rounded down to even
  have hB2even : B2 % 2 = 0 := by
    have el : 2 * A2 = 2 * (B2 * Passage.roundNearestEven A2 B2) + B2 := e2
    omega
  have hA2 : A2 = B2 * Passage.roundNearestEven A2 B2 + B2 / 2 := by omega
  have hdiv2 : A2 / B2 = Passage.roundNearestEven A2 B2 := by
    conv_lhs => rw [hA2]
    rw [Nat.mul_add_div hB2]
    have : B2 / 2 / B2 = 0 := Nat.div_eq_of_lt (by omega)
    omega
  have hmod2 : A2 % B2 = B2 / 2 := by
    rw [hA2, Nat.mul_add_mod]
    exact Nat.mod_eq_of_lt (by omega)
  have htie2 : 2 * (A2 % B2) = B2 := by omega
  have hrne2 := Passage.rne_tie_eq A2 B2 htie2
  rw [hdiv2] at hrne2
  have hm2even : Passage.roundNearestEven A2 B2 % 2 = 0 := by
    by_cases hp : Passage.roundNearestEven A2 B2 % 2 = 0
    · exact hp
    · rw [if_neg hp] at hrne2; omega
  -- parity clash: m1' = rne A2 B2 is both odd and even
  omega

theorem Passage.pow2LeRat_iff (num den : Nat) (hd : 0 < den) (e : Int) :
    Passage.pow2LeRat num den e = true ↔ (2:ℚ) ^ e ≤ (num : ℚ) / den := by
  have hd' : (0:ℚ) < den := by exact_mod_cast hd
  unfold Passage.pow2LeRat
  split_ifs with he
  · rw [decide_eq_true_iff]
    rw [show e = (e.toNat : Int) from (Int.toNat_of_nonneg he).symm, zpow_natCast]
    rw [le_div_iff₀ hd']
    constructor
    · intro hle
      calc (2:ℚ) ^ e.toNat * den = ((den * 2 ^ e.toNat : Nat) : ℚ) := by
            push_cast; ring
        _ ≤ num := by exact_mod_cast hle
    · intro hle
      have : ((den * 2 ^ e.toNat : Nat) : ℚ) ≤ num := by
        calc ((den * 2 ^ e.toNat : Nat) : ℚ) = (2:ℚ) ^ e.toNat * den := by
              push_cast; ring
          _ ≤ num := hle
      exact_mod_cast this
  · push_neg at he
    rw [decide_eq_true_iff]
    set j := (-e).toNat with hj
    have hej : e = -(j : Int) := by omega
    rw [hej, zpow_neg, zpow_natCast, inv_eq_one_div,
      div_le_div_iff₀ (by positivity) hd', one_mul]
    constructor <;> intro h1 <;> exact_mod_cast h1

theorem Passage.ratLog2_spec (num den : Nat) (hn : 0 < num) (hd : 0 < den) :
    (2:ℚ) ^ (Passage.ratLog2 num den) ≤ (num:ℚ)/den
    ∧ (num:ℚ)/den < 2 ^ (Passage.ratLog2 num den + 1) := by
  obtain ⟨ln1, ln2⟩ := Passage.natLog2_spec num hn
  obtain ⟨ld1, ld2⟩ := Passage.natLog2_spec den hd
  have hd' : (0:ℚ) < den := by exact_mod_cast hd
  have two_ne : (2:ℚ) ≠ 0 := two_ne_zero
  have zp : ∀ a b : Nat, (2:ℚ) ^ ((a:Int) - (b:Int)) = (2 ^ a : ℚ) / (2 ^ b : ℚ) := by
    intro a b
    rw [zpow_sub₀ two_ne, zpow_natCast, zpow_natCast]
  have hden_lb : ((2:ℚ) ^ Passage.natLog2 den) ≤ den := by exact_mod_cast ld1
  have hden_ub : (den:ℚ) < 2 ^ (Passage.natLog2 den + 1) := by exact_mod_cast ld2
  have hnum_lb : ((2:ℚ) ^ Passage.natLog2 num) ≤ num := by exact_mod_cast ln1
  have hnum_ub : (num:ℚ) < 2 ^ (Passage.natLog2 num + 1) := by exact_mod_cast ln2
  simp only [Passage.ratLog2]
  split_ifs with hp
  · refine ⟨(Passage.pow2LeRat_iff num den hd _).mp hp, ?_⟩
    have he1 : ((Passage.natLog2 num : Int) - (Passage.natLog2 den : Int)) + 1
        = ((Passage.natLog2 num + 1 : Nat) : Int) - (Passage.natLog2 den : Int) := by
      push_cast; ring
    rw [he1, zp]
    rw [div_lt_div_iff₀ hd' (by positivity)]
    calc (num : ℚ) * 2 ^ Passage.natLog2 den
        < 2 ^ (Passage.natLog2 num + 1) * 2 ^ Passage.natLog2 den := by
          have h2 : (0:ℚ) < 2 ^ Passage.natLog2 den := by positivity
          exact mul_lt_mul_of_pos_right hnum_ub h2
      _ ≤ 2 ^ (Passage.natLog2 num + 1) * den := by
          have h2 : (0:ℚ) < 2 ^ (Passage.natLog2 num + 1) := by positivity
          exact mul_le_mul_of_nonneg_left hden_lb (le_of_lt h2)
  · have hnp : ¬ ((2:ℚ) ^ ((Passage.natLog2 num : Int) - (Passage.natLog2 den : Int))
        ≤ (num:ℚ)/den) := by
      intro hcon
      exact hp ((Passage.pow2LeRat_iff num den hd _).mpr hcon)
    push_neg at hnp
    constructor
    · have he2 : ((Passage.natLog2 num : Int) - (Passage.natLog2 den : Int)) - 1
          = ((Passage.natLog2 num : Nat) : Int) - ((Passage.natLog2 den + 1 : Nat) : Int) := by
        push_cast; ring
      rw [he2, zp]
      rw [div_le_div_iff₀ (by positivity) hd']
      calc (2:ℚ) ^ Passage.natLog2 num * den
          ≤ 2 ^ Passage.natLog2 num * 2 ^ (Passage.natLog2 den + 1) := by
            have h2 : (0:ℚ) < 2 ^ Passage.natLog2 num := by positivity
            exact mul_le_mul_of_nonneg_left (le_of_lt hden_ub) (le_of_lt h2)
        _ ≤ (num : ℚ) * 2 ^ (Passage.natLog2 den + 1) := by
            have h2 : (0:ℚ) < 2 ^ (Passage.natLog2 den + 1) := by positivity
            exact mul_le_mul_of_nonneg_right hnum_lb (le_of_lt h2)
    · have he3 : ((Passage.natLog2 num : Int) - (Passage.natLog2 den : Int)) - 1 + 1
          = (Passage.natLog2 num : Int) - (Passage.natLog2 den : Int) := by ring
      rw [he3]
      exact hnp

theorem Passage.scaledPair_den_pos (num den : Nat) (hd : 0 < den) (k : Int) :
    0 < (Passage.scaledPair num den k).2 := by
  unfold Passage.scaledPair
  split_ifs <;> positivity

theorem Passage.scaledPair_val (num den : Nat) (hd : 0 < den) (k : Int) :
    ((Passage.scaledPair num den k).1 : ℚ) / ((Passage.scaledPair num den k).2 : ℚ)
      = (num : ℚ) / den * (2:ℚ) ^ (-k) := by
  have hd' : (0:ℚ) < den := by exact_mod_cast hd
  unfold Passage.scaledPair
  split_ifs with hk
  · have hzp : (2:ℚ) ^ (-k) = ((2:ℚ) ^ k.toNat)⁻¹ := by
      rw [zpow_neg]
      congr 1
      rw [← zpow_natCast (2:ℚ) k.toNat, Int.toNat_of_nonneg hk]
    rw [hzp]
    push_cast
    rw [div_mul_eq_div_div, div_eq_mul_inv]
  · push_neg at hk
    have hzp : (2:ℚ) ^ (-k) = (2:ℚ) ^ (-k).toNat := by
      rw [← zpow_natCast (2:ℚ) (-k).toNat, Int.toNat_of_nonneg (by omega : (0:Int) ≤ -k)]
    rw [hzp]
    push_cast
    field_simp

theorem Passage.fl64_eq (num den : Nat) (hn : num ≠ 0) :
    Passage.fl64 num den
      = (Passage.roundNearestEven
          (Passage.scaledPair num den (Passage.ratLog2 num den - 52)).1
          (Passage.scaledPair num den (Passage.ratLog2 num den - 52)).2,
         Passage.ratLog2 num den - 52) := by
  simp [Passage.fl64, hn]

/-- Mantissa error: the rounded mantissa is within a half of the exact
scaled value. -/
theorem Passage.fl64_m_err (num den : Nat) (hn : 0 < num) (hd : 0 < den) :
    |(((Passage.fl64 num den).1 : ℚ))
        - (num : ℚ) / den * (2:ℚ) ^ (-(Passage.fl64 num den).2)| ≤ 1 / 2 := by
  rw [Passage.fl64_eq num den (by omega)]
  have hsp := Passage.scaledPair_val num den hd (Passage.ratLog2 num den - 52)
  have hspd := Passage.scaledPair_den_pos num den hd (Passage.ratLog2 num den - 52)
  have := Passage.rne_q
    (Passage.scaledPair num den (Passage.ratLog2 num den - 52)).1
    (Passage.scaledPair num den (Passage.ratLog2 num den - 52)).2 hspd
  rw [hsp] at this
  exact this

/-- The exact scaled value sits in the binade `[2^52, 2^53)`. -/
theorem Passage.scaled_range (num den : Nat) (hn : 0 < num) (hd : 0 < den) :
    (2:ℚ) ^ (52 : Nat) ≤ (num : ℚ) / den * (2:ℚ) ^ (-(Passage.ratLog2 num den - 52))
    ∧ (num : ℚ) / den * (2:ℚ) ^ (-(Passage.ratLog2 num den - 52)) < 2 ^ (53 : Nat) := by
  obtain ⟨hlo, hhi⟩ := Passage.ratLog2_spec num den hn hd
  set e := Passage.ratLog2 num den with he
  have two_ne : (2:ℚ) ≠ 0 := two_ne_zero
  have hp : (0:ℚ) < (2:ℚ) ^ (-(e - 52)) := by positivity
  constructor
  · have h1 : (2:ℚ) ^ e * 2 ^ (-(e - 52)) ≤ (num : ℚ) / den * 2 ^ (-(e - 52)) :=
      mul_le_mul_of_nonneg_right hlo (le_of_lt hp)
    calc (2:ℚ) ^ (52 : Nat) = (2:ℚ) ^ e * 2 ^ (-(e - 52)) := by
          rw [← zpow_add₀ two_ne]
          rw [show e + -(e - 52) = ((52 : Nat) : Int) by push_cast; ring]
          rw [zpow_natCast]
      _ ≤ _ := h1
  · have h1 : (num : ℚ) / den * 2 ^ (-(e - 52)) < (2:ℚ) ^ (e + 1) * 2 ^ (-(e - 52)) :=
      mul_lt_mul_of_pos_right hhi hp
    calc (num : ℚ) / den * 2 ^ (-(e - 52)) < (2:ℚ) ^ (e + 1) * 2 ^ (-(e - 52)) := h1
      _ = (2:ℚ) ^ (53 : Nat) := by
          rw [← zpow_add₀ two_ne]
          rw [show e + 1 + -(e - 52) = ((53 : Nat) : Int) by push_cast; ring]
          rw [zpow_natCast]

/-- Mantissa bounds: `2^52 ≤ m ≤ 2^53`. -/
theorem Passage.fl64_m_bounds (num den : Nat) (hn : 0 < num) (hd : 0 < den) :
    2 ^ 52 ≤ (Passage.fl64 num den).1 ∧ (Passage.fl64 num den).1 ≤ 2 ^ 53 := by
  have herr := Passage.fl64_m_err num den hn hd
  have hk : (Passage.fl64 num den).2 = Passage.ratLog2 num den - 52 := by
    rw [Passage.fl64_eq num den (by omega)]
  obtain ⟨hlo, hhi⟩ := Passage.scaled_range num den hn hd
  rw [hk] at herr
  rw [abs_le] at herr
  constructor
  · by_contra hcon
    push_neg at hcon
    have : ((Passage.fl64 num den).1 : ℚ) ≤ (2:ℚ) ^ (52:Nat) - 1 := by
      have : (Passage.fl64 num den).1 ≤ 2 ^ 52 - 1 := by omega
      calc ((Passage.fl64 num den).1 : ℚ) ≤ ((2 ^ 52 - 1 : Nat) : ℚ) := by
            exact_mod_cast this
        _ = (2:ℚ) ^ (52:Nat) - 1 := by push_cast; norm_num
    linarith [herr.1]
  · by_contra hcon
    push_neg at hcon
    have : (2:ℚ) ^ (53:Nat) + 1 ≤ ((Passage.fl64 num den).1 : ℚ) := by
      have h1 : 2 ^ 53 + 1 ≤ (Passage.fl64 num den).1 := by omega
      calc (2:ℚ) ^ (53:Nat) + 1 = ((2 ^ 53 + 1 : Nat) : ℚ) := by push_cast; norm_num
        _ ≤ _ := by exact_mod_cast h1
    linarith [herr.2]

/-- The pair form of the rounded value denotes the mantissa times the
power of two. -/
theorem Passage.fl64R_val (num den : Nat) :
    ((Passage.fl64R num den).1 : ℚ) / ((Passage.fl64R num den).2 : ℚ)
      = ((Passage.fl64 num den).1 : ℚ) * (2:ℚ) ^ ((Passage.fl64 num den).2) := by
  unfold Passage.fl64R
  rcases hfl : Passage.fl64 num den with ⟨m, k⟩
  dsimp only
  split_ifs with hk
  · have hzp : (2:ℚ) ^ k = (2:ℚ) ^ k.toNat := by
      rw [← zpow_natCast (2:ℚ) k.toNat, Int.toNat_of_nonneg hk]
    push_cast
    rw [hzp, div_one]
  · have hzp : (2:ℚ) ^ k = ((2:ℚ) ^ (-k).toNat)⁻¹ := by
      conv_lhs => rw [show k = -((-k).toNat : Int) by omega]
      rw [zpow_neg, zpow_natCast]
    push_cast
    rw [hzp, div_eq_mul_inv]

theorem Passage.fl64R_den_pos (num den : Nat) :
    0 < (Passage.fl64R num den).2 := by
  unfold Passage.fl64R
  rcases Passage.fl64 num den with ⟨m, k⟩
  dsimp only
  split_ifs <;> positivity

theorem Passage.fl64R_num_pos (num den : Nat) (hn : 0 < num) (hd : 0 < den) :
    0 < (Passage.fl64R num den).1 := by
  have hm := (Passage.fl64_m_bounds num den hn hd).1
  unfold Passage.fl64R
  rcases hfl : Passage.fl64 num den with ⟨m, k⟩
  rw [hfl] at hm
  simp only at hm
  dsimp only
  split_ifs <;> positivity

/-- Relative error of one rounding: within `2⁻⁵²` of the exact value. -/
theorem Passage.fl64R_err (num den : Nat) (hn : 0 < num) (hd : 0 < den) :
    |((Passage.fl64R num den).1 : ℚ) / ((Passage.fl64R num den).2 : ℚ)
        - (num : ℚ) / den| ≤ ((num : ℚ) / den) / 2 ^ (52 : Nat) := by
  rw [Passage.fl64R_val]
  have hk : (Passage.fl64 num den).2 = Passage.ratLog2 num den - 52 := by
    rw [Passage.fl64_eq num den (by omega)]
  have herr := Passage.fl64_m_err num den hn hd
  have two_ne : (2:ℚ) ≠ 0 := two_ne_zero
  have h2k : (0:ℚ) < (2:ℚ) ^ (Passage.fl64 num den).2 := by positivity
  have hfac : ((Passage.fl64 num den).1 : ℚ) * 2 ^ (Passage.fl64 num den).2
      - (num : ℚ) / den
      = (((Passage.fl64 num den).1 : ℚ)
          - (num : ℚ) / den * 2 ^ (-(Passage.fl64 num den).2))
        * 2 ^ (Passage.fl64 num den).2 := by
    rw [sub_mul, mul_assoc, ← zpow_add₀ two_ne]
    norm_num
  rw [hfac, abs_mul, abs_of_pos h2k]
  have hstep : |((Passage.fl64 num den).1 : ℚ)
        - (num : ℚ) / den * 2 ^ (-(Passage.fl64 num den).2)|
        * 2 ^ (Passage.fl64 num den).2
      ≤ (1/2) * 2 ^ (Passage.fl64 num den).2 :=
    mul_le_mul_of_nonneg_right herr (le_of_lt h2k)
  refine le_trans hstep ?_
  obtain ⟨hlo, _⟩ := Passage.ratLog2_spec num den hn hd
  have h2 : (2:ℚ) ^ (Passage.fl64 num den).2 ≤ ((num : ℚ) / den) / 2 ^ (52 : Nat) := by
    rw [hk, le_div_iff₀ (by positivity : (0:ℚ) < (2:ℚ) ^ (52:Nat))]
    calc (2:ℚ) ^ (Passage.ratLog2 num den - 52) * 2 ^ (52:Nat)
        = 2 ^ (Passage.ratLog2 num den) := by
          rw [← zpow_natCast (2:ℚ) 52, ← zpow_add₀ two_ne]
          congr 1
          ring
      _ ≤ (num : ℚ) / den := hlo
  linarith

/-- One rounding is monotone in the exact value. -/
theorem Passage.fl64R_mono (n1 d1 n2 d2 : Nat) (hn1 : 0 < n1) (hd1 : 0 < d1)
    (hn2 : 0 < n2) (hd2 : 0 < d2)
    (h : (n1:ℚ)/d1 ≤ (n2:ℚ)/d2) :
    ((Passage.fl64R n1 d1).1 : ℚ) / ((Passage.fl64R n1 d1).2 : ℚ)
      ≤ ((Passage.fl64R n2 d2).1 : ℚ) / ((Passage.fl64R n2 d2).2 : ℚ) := by
  rw [Passage.fl64R_val, Passage.fl64R_val]
  obtain ⟨hlo1, hhi1⟩ := Passage.ratLog2_spec n1 d1 hn1 hd1
  obtain ⟨hlo2, hhi2⟩ := Passage.ratLog2_spec n2 d2 hn2 hd2
  have hk1 : (Passage.fl64 n1 d1).2 = Passage.ratLog2 n1 d1 - 52 := by
    rw [Passage.fl64_eq n1 d1 (by omega)]
  have hk2 : (Passage.fl64 n2 d2).2 = Passage.ratLog2 n2 d2 - 52 := by
    rw [Passage.fl64_eq n2 d2 (by omega)]
  have two_ne : (2:ℚ) ≠ 0 := two_ne_zero
  have he12 : Passage.ratLog2 n1 d1 ≤ Passage.ratLog2 n2 d2 := by
    by_contra hcon
    push_neg at hcon
    have hle : (2:ℚ) ^ (Passage.ratLog2 n2 d2 + 1) ≤ 2 ^ (Passage.ratLog2 n1 d1) :=
      zpow_le_zpow_right₀ one_le_two (by omega)
    linarith
  rcases eq_or_lt_of_le he12 with heq | hlt
  · have hkk : (Passage.fl64 n1 d1).2 = (Passage.fl64 n2 d2).2 := by
      rw [hk1, hk2, heq]
    have hm : (Passage.fl64 n1 d1).1 ≤ (Passage.fl64 n2 d2).1 := by
      rw [Passage.fl64_eq n1 d1 (by omega), Passage.fl64_eq n2 d2 (by omega)]
      dsimp only
      apply Passage.rne_le_of_le _ _ _ _
        (Passage.scaledPair_den_pos n1 d1 hd1 _)
        (Passage.scaledPair_den_pos n2 d2 hd2 _)
      rw [Passage.scaledPair_val n1 d1 hd1, Passage.scaledPair_val n2 d2 hd2, heq]
      exact mul_le_mul_of_nonneg_right h (le_of_lt (by positivity))
    rw [hkk]
    exact mul_le_mul_of_nonneg_right (by exact_mod_cast hm)
      (le_of_lt (by positivity))
  · obtain ⟨hmlb2, _⟩ := Passage.fl64_m_bounds n2 d2 hn2 hd2
    obtain ⟨_, hmub1⟩ := Passage.fl64_m_bounds n1 d1 hn1 hd1
    calc ((Passage.fl64 n1 d1).1 : ℚ) * 2 ^ (Passage.fl64 n1 d1).2
        ≤ (2:ℚ) ^ (53:Nat) * 2 ^ (Passage.fl64 n1 d1).2 := by
          apply mul_le_mul_of_nonneg_right _ (le_of_lt (by positivity))
          exact_mod_cast hmub1
      _ = (2:ℚ) ^ (Passage.ratLog2 n1 d1 + 1) := by
          rw [hk1, ← zpow_natCast (2:ℚ) 53, ← zpow_add₀ two_ne]
          congr 1
          push_cast
          ring
      _ ≤ (2:ℚ) ^ (Passage.ratLog2 n2 d2) :=
          zpow_le_zpow_right₀ one_le_two (by omega)
      _ = (2:ℚ) ^ (52:Nat) * 2 ^ (Passage.fl64 n2 d2).2 := by
          rw [hk2, ← zpow_natCast (2:ℚ) 52, ← zpow_add₀ two_ne]
          congr 1
          push_cast
          ring
      _ ≤ ((Passage.fl64 n2 d2).1 : ℚ) * 2 ^ (Passage.fl64 n2 d2).2 := by
          apply mul_le_mul_of_nonneg_right _ (le_of_lt (by positivity))
          exact_mod_cast hmlb2

theorem Passage.natDiv_q_bounds (a b : Nat) (hb : 0 < b) :
    ((a / b : Nat) : ℚ) ≤ (a:ℚ)/b ∧ (a:ℚ)/b < (a / b : Nat) + 1 := by
  have hb' : (0:ℚ) < b := by exact_mod_cast hb
  constructor
  · exact Nat.cast_div_le
  · rw [div_lt_iff₀ hb']
    have hN : a < (a / b + 1) * b := by
      have hdm := Nat.div_add_mod a b
      have hmod := Nat.mod_lt a hb
      have e : (a / b + 1) * b = b * (a / b) + b := by ring
      omega
    calc (a:ℚ) < (((a / b + 1) * b : Nat) : ℚ) := by exact_mod_cast hN
      _ = ((a / b : Nat) + 1) * b := by push_cast; ring

/-- The exact value the stage-2 rounding rounds: stage-1's value over
`10^6`. -/
theorem Passage.jsQuot_arg_val (d : Nat) :
    (((Passage.jsNumberPair d).1 : ℚ)) / (((Passage.jsNumberPair d).2 * 1000000 : Nat) : ℚ)
      = (((Passage.jsNumberPair d).1 : ℚ) / ((Passage.jsNumberPair d).2 : ℚ)) / 1000000 := by
  push_cast
  rw [div_mul_eq_div_div]

/-- The exact value the stage-3 rounding rounds: the epoch plus
stage-2's value. -/
theorem Passage.jsSum_arg_val (d : Nat) :
    ((Passage.appleEpoch * (Passage.jsQuotPair d).2 + (Passage.jsQuotPair d).1 : Nat) : ℚ)
        / ((Passage.jsQuotPair d).2 : ℚ)
      = (Passage.appleEpoch : ℚ)
        + ((Passage.jsQuotPair d).1 : ℚ) / ((Passage.jsQuotPair d).2 : ℚ) := by
  have hd : (0:ℚ) < ((Passage.jsQuotPair d).2 : ℚ) := by
    exact_mod_cast Passage.fl64R_den_pos (Passage.jsNumberPair d).1
      ((Passage.jsNumberPair d).2 * 1000000)
  push_cast
  rw [add_div, mul_div_assoc, div_self (ne_of_gt hd), mul_one]

theorem Passage.jsNumberPair_num_pos (d : Nat) (hd : 0 < d) :
    0 < (Passage.jsNumberPair d).1 :=
  Passage.fl64R_num_pos d 1 hd (by norm_num)

theorem Passage.jsQuotPair_num_pos (d : Nat) (hd : 0 < d) :
    0 < (Passage.jsQuotPair d).1 :=
  Passage.fl64R_num_pos _ _ (Passage.jsNumberPair_num_pos d hd)
    (Nat.mul_pos (Passage.fl64R_den_pos d 1) (by norm_num))

theorem Passage.jsSumPair_arg_pos (d : Nat) :
    0 < Passage.appleEpoch * (Passage.jsQuotPair d).2 + (Passage.jsQuotPair d).1 := by
  have := Passage.fl64R_den_pos (Passage.jsNumberPair d).1
    ((Passage.jsNumberPair d).2 * 1000000)
  have he : 0 < Passage.appleEpoch := by norm_num [Passage.appleEpoch]
  exact Nat.lt_of_lt_of_le (Nat.mul_pos he this) (Nat.le_add_right _ _)

theorem Passage.jsTimestamp_mono (d1 d2 : Nat) (h1 : 0 < d1) (hle : d1 ≤ d2) :
    Passage.jsTimestamp d1 ≤ Passage.jsTimestamp d2 := by
  have h2 : 0 < d2 := by omega
  -- stage 1: reading the integer as a double is monotone
  have s1 : ((Passage.jsNumberPair d1).1 : ℚ) / ((Passage.jsNumberPair d1).2 : ℚ)
      ≤ ((Passage.jsNumberPair d2).1 : ℚ) / ((Passage.jsNumberPair d2).2 : ℚ) := by
    apply Passage.fl64R_mono d1 1 d2 1 h1 (by norm_num) h2 (by norm_num)
    simp only [Nat.cast_one, div_one]
    exact_mod_cast hle
  -- stage 2: the division is monotone
  have s2 : ((Passage.jsQuotPair d1).1 : ℚ) / ((Passage.jsQuotPair d1).2 : ℚ)
      ≤ ((Passage.jsQuotPair d2).1 : ℚ) / ((Passage.jsQuotPair d2).2 : ℚ) := by
    apply Passage.fl64R_mono _ _ _ _
      (Passage.jsNumberPair_num_pos d1 h1)
      (Nat.mul_pos (Passage.fl64R_den_pos d1 1) (by norm_num))
      (Passage.jsNumberPair_num_pos d2 h2)
      (Nat.mul_pos (Passage.fl64R_den_pos d2 1) (by norm_num))
    show ((Passage.jsNumberPair d1).1 : ℚ)
        / (((Passage.jsNumberPair d1).2 * 1000000 : Nat) : ℚ)
      ≤ ((Passage.jsNumberPair d2).1 : ℚ)
        / (((Passage.jsNumberPair d2).2 * 1000000 : Nat) : ℚ)
    rw [Passage.jsQuot_arg_val d1, Passage.jsQuot_arg_val d2]
    exact (div_le_div_iff_of_pos_right (by norm_num)).mpr s1
  -- stage 3: the addition is monotone
  have s3 : ((Passage.jsSumPair d1).1 : ℚ) / ((Passage.jsSumPair d1).2 : ℚ)
      ≤ ((Passage.jsSumPair d2).1 : ℚ) / ((Passage.jsSumPair d2).2 : ℚ) := by
    apply Passage.fl64R_mono _ _ _ _
      (Passage.jsSumPair_arg_pos d1)
      (Passage.fl64R_den_pos _ _)
      (Passage.jsSumPair_arg_pos d2)
      (Passage.fl64R_den_pos _ _)
    show ((Passage.appleEpoch * (Passage.jsQuotPair d1).2 + (Passage.jsQuotPair d1).1 : Nat) : ℚ)
        / ((Passage.jsQuotPair d1).2 : ℚ)
      ≤ ((Passage.appleEpoch * (Passage.jsQuotPair d2).2 + (Passage.jsQuotPair d2).1 : Nat) : ℚ)
        / ((Passage.jsQuotPair d2).2 : ℚ)
    rw [Passage.jsSum_arg_val d1, Passage.jsSum_arg_val d2]
    linarith
  -- floors
  unfold Passage.jsTimestamp
  obtain ⟨ha1, hb1⟩ := Passage.natDiv_q_bounds (Passage.jsSumPair d1).1
    (Passage.jsSumPair d1).2 (Passage.fl64R_den_pos _ _)
  obtain ⟨ha2, hb2⟩ := Passage.natDiv_q_bounds (Passage.jsSumPair d2).1
    (Passage.jsSumPair d2).2 (Passage.fl64R_den_pos _ _)
  have : ((Passage.jsSumPair d1).1 / (Passage.jsSumPair d1).2 : Nat)
      < ((Passage.jsSumPair d2).1 / (Passage.jsSumPair d2).2 : Nat) + 1 := by
    have hq : (((Passage.jsSumPair d1).1 / (Passage.jsSumPair d1).2 : Nat) : ℚ)
        < (((Passage.jsSumPair d2).1 / (Passage.jsSumPair d2).2 : Nat) : ℚ) + 1 := by
      linarith
    exact_mod_cast hq
  omega

/-- The binary64 evaluation of the timestamp stays within one
millisecond of the exact integer formula (dates below `2^62`). -/
theorem Passage.jsTimestamp_close (d : Nat) (h0 : 0 < d) (hub : d < 2 ^ 62) :
    Passage.appleEpoch + d / 1000000 ≤ Passage.jsTimestamp d + 1
    ∧ Passage.jsTimestamp d ≤ Passage.appleEpoch + d / 1000000 + 1 := by
  have hd' : (0:ℚ) < d := by exact_mod_cast h0
  have hdub : (d:ℚ) ≤ 2 ^ (62:Nat) := by
    have : d ≤ 2 ^ 62 := le_of_lt hub
    exact_mod_cast this
  -- per-stage rounding errors
  have e1 : |((Passage.jsNumberPair d).1 : ℚ) / ((Passage.jsNumberPair d).2 : ℚ)
      - (d:ℚ)| ≤ (d:ℚ) / 2 ^ (52:Nat) := by
    have h := Passage.fl64R_err d 1 h0 (by norm_num)
    simpa using h
  have e2 : |((Passage.jsQuotPair d).1 : ℚ) / ((Passage.jsQuotPair d).2 : ℚ)
      - (((Passage.jsNumberPair d).1 : ℚ) / ((Passage.jsNumberPair d).2 : ℚ)) / 1000000|
      ≤ ((((Passage.jsNumberPair d).1 : ℚ) / ((Passage.jsNumberPair d).2 : ℚ)) / 1000000)
        / 2 ^ (52:Nat) := by
    have h := Passage.fl64R_err (Passage.jsNumberPair d).1
      ((Passage.jsNumberPair d).2 * 1000000)
      (Passage.jsNumberPair_num_pos d h0)
      (Nat.mul_pos (Passage.fl64R_den_pos d 1) (by norm_num))
    rw [Passage.jsQuot_arg_val d] at h
    exact h
  have e3 : |((Passage.jsSumPair d).1 : ℚ) / ((Passage.jsSumPair d).2 : ℚ)
      - ((Passage.appleEpoch : ℚ)
        + ((Passage.jsQuotPair d).1 : ℚ) / ((Passage.jsQuotPair d).2 : ℚ))|
      ≤ ((Passage.appleEpoch : ℚ)
        + ((Passage.jsQuotPair d).1 : ℚ) / ((Passage.jsQuotPair d).2 : ℚ))
        / 2 ^ (52:Nat) := by
    have h := Passage.fl64R_err
      (Passage.appleEpoch * (Passage.jsQuotPair d).2 + (Passage.jsQuotPair d).1)
      (Passage.jsQuotPair d).2 (Passage.jsSumPair_arg_pos d)
      (Passage.fl64R_den_pos _ _)
    rw [Passage.jsSum_arg_val d] at h
    exact h
  set w1 : ℚ := ((Passage.jsNumberPair d).1 : ℚ) / ((Passage.jsNumberPair d).2 : ℚ)
  set w2 : ℚ := ((Passage.jsQuotPair d).1 : ℚ) / ((Passage.jsQuotPair d).2 : ℚ)
  set w3 : ℚ := ((Passage.jsSumPair d).1 : ℚ) / ((Passage.jsSumPair d).2 : ℚ)
  have hE : (Passage.appleEpoch : ℚ) = 978307200000 := by
    norm_num [Passage.appleEpoch]
  have h52 : ((2:ℚ) ^ (52:Nat)) = 4503599627370496 := by norm_num
  have h62 : ((2:ℚ) ^ (62:Nat)) = 4611686018427387904 := by norm_num
  obtain ⟨e1l, e1r⟩ := abs_le.mp e1
  obtain ⟨e2l, e2r⟩ := abs_le.mp e2
  obtain ⟨e3l, e3r⟩ := abs_le.mp e3
  have b1 : w1 ≤ 2 * d := by
    rw [h52] at e1r
    linarith
  have b1l : (0:ℚ) ≤ w1 := by
    rw [h52] at e1l
    linarith
  have b2 : w2 ≤ 2 * (w1 / 1000000) := by
    rw [h52] at e2r
    linarith
  have b2l : (0:ℚ) ≤ w2 := by
    rw [h52] at e2l
    linarith
  -- total deviation from the exact value, comfortably below a half
  have total_hi : w3 ≤ (Passage.appleEpoch : ℚ) + (d:ℚ) / 1000000 + 1 / 2 := by
    rw [h52] at e3r e2r e1r
    rw [hE] at e3r ⊢
    linarith
  have total_lo : (Passage.appleEpoch : ℚ) + (d:ℚ) / 1000000 - 1 / 2 ≤ w3 := by
    rw [h52] at e3l e2l e1l
    rw [hE] at e3l ⊢
    linarith
  -- floor comparison
  obtain ⟨hX1, hX2⟩ := Passage.natDiv_q_bounds d 1000000 (by norm_num)
  obtain ⟨hT1, hT2⟩ := Passage.natDiv_q_bounds (Passage.jsSumPair d).1
    (Passage.jsSumPair d).2 (Passage.fl64R_den_pos _ _)
  have hTdef : Passage.jsTimestamp d
      = (Passage.jsSumPair d).1 / (Passage.jsSumPair d).2 := rfl
  constructor
  · have hq : ((Passage.appleEpoch + d / 1000000 : Nat) : ℚ)
        < ((Passage.jsTimestamp d : Nat) : ℚ) + 2 := by
      rw [hTdef]
      push_cast
      linarith
    have hN : Passage.appleEpoch + d / 1000000 < Passage.jsTimestamp d + 2 := by
      exact_mod_cast hq
    omega
  · have hq : ((Passage.jsTimestamp d : Nat) : ℚ)
        < ((Passage.appleEpoch + d / 1000000 : Nat) : ℚ) + 2 := by
      rw [hTdef]
      push_cast
      linarith
    have hN : Passage.jsTimestamp d < Passage.appleEpoch + d / 1000000 + 2 := by
      exact_mod_cast hq
    omega


/-! ## Claim C3 -/

/-- Counterexample for C3: the conversion is evaluated in IEEE-754
binary64 arithmetic, so it is not the exact integer formula
`978307200000 + t / 1_000_000`. At raw timestamp `t = 999_999_999`
nanoseconds the program computes `978307201000` milliseconds, while the
exact formula gives `978307200999`. -/
theorem C3_timestamp_conversion_cex :
    (Passage.mapRowToMessage Passage.env0 Passage.wDB1 "1"
        (Passage.fixRow 9 "x" 999999999)).timestamp = 978307201000
    ∧ 978307200000 + 999999999 / 1000000 = 978307200999
    ∧ (978307201000 : Nat) ≠ 978307200999 := by
  refine ⟨?_, by norm_num, by norm_num⟩
  decide

/-- Claim C3 (amended): for every message row with a present, non-zero
raw timestamp `t < 2^62` (nanoseconds since the 2001-01-01 reference
epoch), the message's `timestamp` field is the floor of the binary64
evaluation of `978307200000 + t / 1e6`, which lies within one
millisecond of the exact value `978307200000 + t / 1_000_000`; for a row
whose raw timestamp is absent or zero, the timestamp is the current
wall-clock time. -/
theorem C3_timestamp_conversion (env : Passage.Env) (db : Passage.DB)
    (cid : String) (row : Passage.MessageRow) :
    (∀ t : Nat, row.date = some t → t ≠ 0 → t < 2 ^ 62 →
      (Passage.mapRowToMessage env db cid row).timestamp = Passage.jsTimestamp t
      ∧ 978307200000 + t / 1000000
          ≤ (Passage.mapRowToMessage env db cid row).timestamp + 1
      ∧ (Passage.mapRowToMessage env db cid row).timestamp
          ≤ 978307200000 + t / 1000000 + 1)
    ∧ ((row.date = none ∨ row.date = some 0) →
      (Passage.mapRowToMessage env db cid row).timestamp = env.now) := by
  constructor
  · intro t ht htz hub
    have hts : (Passage.mapRowToMessage env db cid row).timestamp
        = Passage.jsTimestamp t := by
      simp [Passage.mapRowToMessage, ht, Passage.jsNat, if_neg htz]
    have hclose := Passage.jsTimestamp_close t (Nat.pos_of_ne_zero htz) hub
    rw [hts]
    exact ⟨rfl, by simpa [Passage.appleEpoch] using hclose.1,
      by simpa [Passage.appleEpoch] using hclose.2⟩
  · rintro (h | h) <;> simp [Passage.mapRowToMessage, h, Passage.jsNat]

/-- Witness for C3: a row dated 5000005 nanoseconds converts within one
millisecond of `978307200000 + 5` ms, and a row with an absent date
converts to the clock value of `env0`. -/
theorem C3_timestamp_conversion_witness :
    ((Passage.fixRow 1 "a" 5000005).date = some 5000005 ∧ 5000005 ≠ 0
      ∧ 5000005 < 2 ^ 62
      ∧ 978307200000 + 5000005 / 1000000
          ≤ (Passage.mapRowToMessage Passage.env0 Passage.wDB1 "1"
              (Passage.fixRow 1 "a" 5000005)).timestamp + 1
      ∧ (Passage.mapRowToMessage Passage.env0 Passage.wDB1 "1"
            (Passage.fixRow 1 "a" 5000005)).timestamp
          ≤ 978307200000 + 5000005 / 1000000 + 1)
    ∧ (({ Passage.fixRow 1 "a" 0 with date := none } : Passage.MessageRow).date = none
      ∧ (Passage.mapRowToMessage Passage.env0 Passage.wDB1 "1"
          { Passage.fixRow 1 "a" 0 with date := none }).timestamp = Passage.env0.now) :=
  ⟨⟨rfl, by decide, by norm_num,
    ((C3_timestamp_conversion Passage.env0 Passage.wDB1 "1" _).1
        5000005 rfl (by decide) (by norm_num)).2.1,
    ((C3_timestamp_conversion Passage.env0 Passage.wDB1 "1" _).1
        5000005 rfl (by decide) (by norm_num)).2.2⟩,
   ⟨rfl,
    (C3_timestamp_conversion Passage.env0 Passage.wDB1 "1" _).2 (Or.inl rfl)⟩⟩

/-! ## Claim C9 -/

/-- Claim C9: for every conversation id that does not exist in the source
database, `getConversation` returns null (a `none` value, not a thrown
error — the embedding is a total function into `Option`). -/
theorem C9_get_conversation_not_found (env : Passage.Env) (db : Passage.DB)
    (conversationId : Nat)
    (h : ∀ c ∈ db.chats, c.rowid ≠ conversationId) :
    Passage.getConversation env db conversationId = none := by
  unfold Passage.getConversation
  have hf : db.chats.find? (fun c => c.rowid = conversationId) = none :=
    List.find?_eq_none.mpr (fun c hc => by simp [h c hc])
  rw [hf]

/-- Witness for C9: id 99 is absent from the two-message fixture. -/
theorem C9_get_conversation_not_found_witness :
    (∀ c ∈ Passage.wDB1.chats, c.rowid ≠ 99)
    ∧ Passage.getConversation Passage.env0 Passage.wDB1 99 = none :=
  ⟨by decide,
   C9_get_conversation_not_found Passage.env0 Passage.wDB1 99 (by decide)⟩

/-! ## Helper lemmas about the assembler -/

/-- A chat row produced by the `getConversations` row query is a row of
the `chat` table. -/
theorem Passage.mem_of_mem_conversationChats {db : Passage.DB}
    {c : Passage.ChatRow} (h : c ∈ Passage.conversationChats db) :
    c ∈ db.chats := by
  unfold Passage.conversationChats at h
  exact List.mem_of_mem_filter ((List.perm_insertionSort _ _).subset h)

/-- Characterization of `getLastMessageForChat`: either the chat has no
row passing the SQL association filter and the result is null, or the
result maps a filtered row whose date key is maximal. -/
theorem Passage.getLastMessageForChat_spec (env : Passage.Env)
    (db : Passage.DB) (chatId : Nat) :
    (Passage.getLastMessageForChat env db chatId = none
      ∧ (Passage.messagesForChat db chatId).filter Passage.lastMessagePred = [])
    ∨ (∃ row ∈ (Passage.messagesForChat db chatId).filter Passage.lastMessagePred,
        Passage.getLastMessageForChat env db chatId
          = some (Passage.mapRowToMessage env db (toString chatId) row)
        ∧ ∀ m ∈ (Passage.messagesForChat db chatId).filter Passage.lastMessagePred,
            Passage.dateKey m.date ≤ Passage.dateKey row.date) := by
  haveI : IsTotal Passage.MessageRow
      (fun a b => Passage.dateKey b.date ≤ Passage.dateKey a.date) :=
    ⟨fun a b => le_total _ _⟩
  haveI : IsTrans Passage.MessageRow
      (fun a b => Passage.dateKey b.date ≤ Passage.dateKey a.date) :=
    ⟨fun _ _ _ h1 h2 => le_trans h2 h1⟩
  unfold Passage.getLastMessageForChat
  rcases hs : Passage.sortByDateDesc
      ((Passage.messagesForChat db chatId).filter Passage.lastMessagePred) with
    _ | ⟨row, rest⟩
  · left
    refine ⟨rfl, ?_⟩
    have hperm := List.perm_insertionSort
      (fun a b => Passage.dateKey b.date ≤ Passage.dateKey a.date)
      ((Passage.messagesForChat db chatId).filter Passage.lastMessagePred)
    rw [Passage.sortByDateDesc] at hs
    rw [hs] at hperm
    exact hperm.symm.eq_nil
  · right
    have hperm := List.perm_insertionSort
      (fun a b => Passage.dateKey b.date ≤ Passage.dateKey a.date)
      ((Passage.messagesForChat db chatId).filter Passage.lastMessagePred)
    have hsorted := List.sorted_insertionSort
      (fun a b => Passage.dateKey b.date ≤ Passage.dateKey a.date)
      ((Passage.messagesForChat db chatId).filter Passage.lastMessagePred)
    rw [Passage.sortByDateDesc] at hs
    rw [hs] at hperm hsorted
    have hrowmem : row ∈ (Passage.messagesForChat db chatId).filter
        Passage.lastMessagePred :=
      hperm.subset (List.mem_cons_self _ _)
    refine ⟨row, hrowmem, rfl, ?_⟩
    intro m hm
    have hm' : m ∈ row :: rest := hperm.symm.subset hm
    rcases List.mem_cons.mp hm' with rfl | hm''
    · exact le_refl _
    · exact (List.pairwise_cons.mp hsorted).1 m hm''

/-- `unreadCount` computes the spec-side count (the join filter and the
flag filter commute). -/
theorem Passage.unreadCount_eq_spec (db : Passage.DB) (chatId : Nat) :
    Passage.unreadCount db chatId = Passage.unreadCountSpec db chatId := by
  unfold Passage.unreadCount Passage.unreadCountSpec Passage.messagesForChat
  rw [List.filter_filter]
  congr 1
  apply List.filter_congr
  intro m _
  rw [Bool.and_comm]

/-! ## Claim C10 -/

/-- Claim C10: every `Message` value produced by the assembler (through
`getMessages`, `getConversations`, or `getConversation`) has a non-null
`text` field, although the declared type allows null; when the plain-text
column is falsy and the binary decoder recovers nothing, the field is the
empty string. -/
theorem C10_text_never_null (env : Passage.Env) (db : Passage.DB) :
    (∀ cid row, (Passage.mapRowToMessage env db cid row).text ≠ none)
    ∧ (∀ cid row, Passage.jsStr row.text = none →
        Passage.extractTextFromAttributedBody env row.attributedBody = none →
        (Passage.mapRowToMessage env db cid row).text = some "")
    ∧ (∀ chatId limit before,
        ∀ msg ∈ (Passage.getMessages env db chatId limit before).1,
          msg.text ≠ none)
    ∧ (∀ conv ∈ Passage.getConversations env db,
        ∀ m, conv.lastMessage = some m → m.text ≠ none)
    ∧ (∀ cid conv, Passage.getConversation env db cid = some conv →
        ∀ m, conv.lastMessage = some m → m.text ≠ none) := by
  have hmap : ∀ cid row, (Passage.mapRowToMessage env db cid row).text ≠ none := by
    intro cid row
    simp [Passage.mapRowToMessage]
  have hlast : ∀ chatId m,
      Passage.getLastMessageForChat env db chatId = some m → m.text ≠ none := by
    intro chatId m hm
    rcases Passage.getLastMessageForChat_spec env db chatId with ⟨h1, _⟩ |
      ⟨row, _, h2, _⟩
    · rw [h1] at hm; cases hm
    · rw [h2] at hm
      cases hm
      exact hmap _ _
  refine ⟨hmap, ?_, ?_, ?_, ?_⟩
  · intro cid row h1 h2
    simp only [Passage.mapRowToMessage, h1]
    cases hb : row.attributedBody with
    | none => simp [hb]
    | some val => rw [hb] at h2; simp [hb, h2]
  · intro chatId limit before msg hm
    unfold Passage.getMessages at hm
    simp only [List.mem_reverse, List.mem_map] at hm
    obtain ⟨row, _, rfl⟩ := hm
    exact hmap (toString chatId) row
  · intro conv hconv m hm
    obtain ⟨c, _, rfl⟩ := List.mem_map.mp hconv
    exact hlast c.rowid m (by simpa [Passage.buildConversation] using hm)
  · intro cid conv hconv m hm
    unfold Passage.getConversation at hconv
    rcases hf : db.chats.find? (fun c => c.rowid = cid) with _ | c <;>
      rw [hf] at hconv
    · cases hconv
    · cases hconv
      exact hlast c.rowid m (by simpa [Passage.buildConversation] using hm)

/-- Witness for C10: a row with a null text column and no attributed body
maps to the empty-string text, and the single-chat fixture's
`getConversation` result has a last message with non-null text. -/
theorem C10_text_never_null_witness :
    Passage.jsStr ({ Passage.fixRow 1 "a" 5000000 with text := none }
        : Passage.MessageRow).text = none
    ∧ Passage.extractTextFromAttributedBody Passage.env0
        ({ Passage.fixRow 1 "a" 5000000 with text := none }
          : Passage.MessageRow).attributedBody = none
    ∧ (Passage.mapRowToMessage Passage.env0 Passage.wDB1 "1"
        { Passage.fixRow 1 "a" 5000000 with text := none }).text = some "" :=
  ⟨rfl, rfl,
   (C10_text_never_null Passage.env0 Passage.wDB1).2.1 "1"
     { Passage.fixRow 1 "a" 5000000 with text := none } rfl rfl⟩

/-! ## Claim C6 -/

/-- Claim C6: for every conversation returned by `getConversations` or
`getConversation`, the `unreadCount` field equals the number of messages
of that conversation that are unread and not from me. -/
theorem C6_unread_count (env : Passage.Env) (db : Passage.DB) :
    (∀ conv ∈ Passage.getConversations env db, ∃ c ∈ db.chats,
      conv.id = toString c.rowid
        ∧ conv.unreadCount = Passage.unreadCountSpec db c.rowid)
    ∧ (∀ cid conv, Passage.getConversation env db cid = some conv →
      conv.unreadCount = Passage.unreadCountSpec db cid) := by
  constructor
  · intro conv hconv
    obtain ⟨c, hc, rfl⟩ := List.mem_map.mp hconv
    refine ⟨c, Passage.mem_of_mem_conversationChats hc, rfl, ?_⟩
    simpa [Passage.buildConversation] using Passage.unreadCount_eq_spec db c.rowid
  · intro cid conv hconv
    unfold Passage.getConversation at hconv
    rcases hf : db.chats.find? (fun c => c.rowid = cid) with _ | c <;>
      rw [hf] at hconv
    · cases hconv
    · cases hconv
      have hcid : c.rowid = cid := by simpa using List.find?_some hf
      rw [← hcid]
      simpa [Passage.buildConversation] using
        Passage.unreadCount_eq_spec db c.rowid

/-- Witness for C6: the single-chat fixture's conversation 1 carries the
spec-side unread count. -/
theorem C6_unread_count_witness :
    Passage.getConversation Passage.env0 Passage.wDB1 1
      = some (Passage.buildConversation Passage.env0 Passage.wDB1 ⟨1, "chat1", none⟩)
    ∧ (Passage.buildConversation Passage.env0 Passage.wDB1
        ⟨1, "chat1", none⟩).unreadCount = Passage.unreadCountSpec Passage.wDB1 1 :=
  ⟨by decide,
   (C6_unread_count Passage.env0 Passage.wDB1).2 1 _ (by decide)⟩

/-! ## Helper lemmas about the reaction grouping -/

/-- Lookup after a `mapSet`: the set key reads the new value, every other
key is unchanged. -/
theorem Passage.mapGet_mapSet (k : String) (v : List Passage.Reaction)
    (g : String) (m : List (String × List Passage.Reaction)) :
    Passage.mapGet (Passage.mapSet m k v) g
      = if k = g then some v else Passage.mapGet m g := by
  induction m with
  | nil => simp [Passage.mapSet, Passage.mapGet]
  | cons e rest ih =>
    obtain ⟨k', v'⟩ := e
    simp only [Passage.mapSet]
    by_cases h1 : k' = k
    · subst h1
      simp only [if_pos rfl, Passage.mapGet]
      by_cases h2 : k' = g <;> simp [Passage.mapGet, h2]
    · simp only [if_neg h1, Passage.mapGet]
      by_cases h2 : k' = g
      · subst h2
        have hk : k ≠ k' := fun h => h1 h.symm
        simp [hk]
      · simp [h2, ih]

/-- The grouping loop, run over reaction rows from any accumulator map:
the final per-key list is the accumulator's list followed by the
spec-side entries of the rows, in row order. -/
theorem Passage.foldl_reactionsMapStep_getD (env : Passage.Env)
    (db : Passage.DB) (g : String) (rows : List Passage.MessageRow) :
    ∀ acc : List (String × List Passage.Reaction),
      (∀ r ∈ rows, Passage.isReactionMessage r.associated_message_type = true) →
      (Passage.mapGet (rows.foldl (Passage.reactionsMapStep env db) acc) g).getD []
        = (Passage.mapGet acc g).getD []
          ++ rows.filterMap (Passage.specReactionEntry env db g) := by
  induction rows with
  | nil => intro acc _; simp
  | cons r rest ih =>
    intro acc hall
    have hr : Passage.isReactionMessage r.associated_message_type = true :=
      hall r (List.mem_cons_self _ _)
    have hrest : ∀ x ∈ rest,
        Passage.isReactionMessage x.associated_message_type = true :=
      fun x hx => hall x (List.mem_cons_of_mem _ hx)
    simp only [List.foldl_cons, List.filterMap_cons]
    rcases hg : r.associated_message_guid with _ | gg
    · rw [show Passage.reactionsMapStep env db acc r = acc by
        simp [Passage.reactionsMapStep, hg]]
      rw [show Passage.specReactionEntry env db g r = none by
        simp [Passage.specReactionEntry, hg]]
      exact ih acc hrest
    · rcases ht : r.associated_message_type with _ | t
      · rw [ht] at hr
        simp [Passage.isReactionMessage] at hr
      · by_cases hgg : gg = ""
        · rw [show Passage.reactionsMapStep env db acc r = acc by
            simp [Passage.reactionsMapStep, hg, hgg]]
          rw [show Passage.specReactionEntry env db g r = none by
            simp [Passage.specReactionEntry, hg, ht, hgg]]
          exact ih acc hrest
        · by_cases hrem : Passage.isRemoveReaction t = true
          · rw [show Passage.reactionsMapStep env db acc r = acc by
              simp [Passage.reactionsMapStep, hg, hgg, ht,
                Passage.isRemoveReactionOpt, hrem]]
            rw [show Passage.specReactionEntry env db g r = none by
              simp [Passage.specReactionEntry, hg, ht, hgg, hrem]]
            exact ih acc hrest
          · rw [Bool.not_eq_true] at hrem
            rcases hrt : Passage.getReactionType t with _ | rt
            · rw [show Passage.reactionsMapStep env db acc r = acc by
                simp [Passage.reactionsMapStep, hg, hgg, ht,
                  Passage.isRemoveReactionOpt, hrem,
                  Passage.getReactionTypeOpt, hrt]]
              rw [show Passage.specReactionEntry env db g r = none by
                simp [Passage.specReactionEntry, hg, ht, hgg, hrem, hrt]]
              exact ih acc hrest
            · have hstep : Passage.reactionsMapStep env db acc r
                  = Passage.mapSet acc (Passage.stripParentGuid gg)
                      ((Passage.mapGet acc (Passage.stripParentGuid gg)).getD []
                        ++ [Passage.mkReaction env db r rt]) := by
                simp [Passage.reactionsMapStep, hg, hgg, ht,
                  Passage.isRemoveReactionOpt, hrem,
                  Passage.getReactionTypeOpt, hrt]
              by_cases hk : Passage.stripParentGuid gg = g
              · have hent : Passage.specReactionEntry env db g r
                    = some (Passage.mkReaction env db r rt) := by
                  rw [ht] at hr
                  simp [Passage.specReactionEntry, hg, ht, hgg, hrem, hrt,
                    hr, hk]
                rw [hk] at hstep
                rw [hstep, ih _ hrest, Passage.mapGet_mapSet, if_pos rfl, hent]
                simp
              · have hent : Passage.specReactionEntry env db g r = none := by
                  simp [Passage.specReactionEntry, hg, ht, hgg, hrem, hrt, hk]
                rw [hstep, ih _ hrest, Passage.mapGet_mapSet, if_neg hk, hent]

/-- A row not classified as a reaction contributes no spec-side entry. -/
theorem Passage.specReactionEntry_eq_none (env : Passage.Env)
    (db : Passage.DB) (g : String) (r : Passage.MessageRow)
    (h : Passage.isReactionMessage r.associated_message_type = false) :
    Passage.specReactionEntry env db g r = none := by
  rcases hg : r.associated_message_guid with _ | gg
  · simp [Passage.specReactionEntry, hg]
  · rcases ht : r.associated_message_type with _ | t
    · simp [Passage.specReactionEntry, hg, ht]
    · rw [ht] at h
      simp [Passage.specReactionEntry, hg, ht, h]

/-- Collecting spec-side entries from all fetched rows equals collecting
them from the reaction partition only. -/
theorem Passage.filterMap_specReactionEntry_filter (env : Passage.Env)
    (db : Passage.DB) (g : String) (rows : List Passage.MessageRow) :
    (rows.filter
        (fun m => Passage.isReactionMessage m.associated_message_type)).filterMap
      (Passage.specReactionEntry env db g)
      = rows.filterMap (Passage.specReactionEntry env db g) := by
  induction rows with
  | nil => rfl
  | cons r rest ih =>
    by_cases hr : Passage.isReactionMessage r.associated_message_type = true
    · simp [List.filter_cons, hr, List.filterMap_cons, ih]
    · rw [Bool.not_eq_true] at hr
      simp [List.filter_cons, hr, List.filterMap_cons, ih,
        Passage.specReactionEntry_eq_none env db g r hr]

/-- The lookup a page message performs against the built reactions map
yields exactly the spec-side reaction list for its guid. -/
theorem Passage.buildReactionsMap_spec (env : Passage.Env) (db : Passage.DB)
    (chatId limit : Nat) (before : Option Nat) (g : String) :
    (Passage.mapGet
        (Passage.buildReactionsMap env db
          (Passage.reactionRowsOf db chatId limit before)) g).getD []
      = Passage.specReactionsFor env db
          (Passage.fetchedRows db chatId limit before) g := by
  unfold Passage.buildReactionsMap Passage.reactionRowsOf
    Passage.specReactionsFor
  rw [Passage.foldl_reactionsMapStep_getD env db g _ []
    (fun r hr => by simpa using List.of_mem_filter hr)]
  simp [Passage.mapGet, Passage.filterMap_specReactionEntry_filter]

/-! ## Membership and classification helpers -/

theorem Passage.mem_of_mem_messagesForChat {db : Passage.DB} {chatId : Nat}
    {m : Passage.MessageRow} (h : m ∈ Passage.messagesForChat db chatId) :
    m ∈ db.messages :=
  List.mem_of_mem_filter h

theorem Passage.mem_of_mem_fetchedRows {db : Passage.DB}
    {chatId limit : Nat} {before : Option Nat} {m : Passage.MessageRow}
    (h : m ∈ Passage.fetchedRows db chatId limit before) :
    m ∈ Passage.messagesForChat db chatId := by
  unfold Passage.fetchedRows Passage.sortByDateDesc at h
  have h1 := (List.perm_insertionSort _ _).subset (List.mem_of_mem_take h)
  rcases hb : Passage.jsNat before with _ | bv <;> rw [hb] at h1
  · exact h1
  · exact List.mem_of_mem_filter h1

/-- The structure-update projections of `attachReactions`. -/
theorem Passage.attachReactions_id (env : Passage.Env) (db : Passage.DB)
    (rmap : List (String × List Passage.Reaction)) (cid : String)
    (row : Passage.MessageRow) :
    (Passage.attachReactions env db rmap cid row).id = Passage.msgRowId row :=
  rfl

theorem Passage.attachReactions_assocType (env : Passage.Env)
    (db : Passage.DB) (rmap : List (String × List Passage.Reaction))
    (cid : String) (row : Passage.MessageRow) :
    (Passage.attachReactions env db rmap cid row).associatedMessageType
      = Passage.jsInt row.associated_message_type :=
  rfl

/-- The JS `|| undefined` copy of the association code does not change
its reaction classification (`0` and `undefined` are both not
reactions). -/
theorem Passage.isReactionMessage_jsInt (t : Option Int) :
    Passage.isReactionMessage (Passage.jsInt t)
      = Passage.isReactionMessage t := by
  rcases t with _ | v
  · rfl
  · by_cases hv : v = 0
    · subst hv
      simp [Passage.jsInt, Passage.isReactionMessage]
    · simp [Passage.jsInt, hv]

/-- A row passing the last-message SQL filter is not classified as a
reaction, also after the `|| undefined` copy. -/
theorem Passage.lastMessagePred_not_reaction {m : Passage.MessageRow}
    (h : Passage.lastMessagePred m = true) :
    Passage.isReactionMessage (Passage.jsInt m.associated_message_type)
      = false := by
  rw [Passage.isReactionMessage_jsInt]
  rcases ht : m.associated_message_type with _ | t
  · rfl
  · rw [Passage.lastMessagePred, ht] at h
    simp only [Bool.or_eq_true, decide_eq_true_eq] at h
    by_cases h0 : t = 0
    · simp [Passage.isReactionMessage, h0]
    · simp only [Passage.isReactionMessage, if_neg h0, Bool.or_eq_false_iff,
        Bool.and_eq_false_iff, decide_eq_false_iff_not, not_le]
      omega

/-- A message produced by `mapRowToMessage` carries the `|| undefined`
copy of the association code. -/
theorem Passage.mapRowToMessage_assocType (env : Passage.Env)
    (db : Passage.DB) (cid : String) (row : Passage.MessageRow) :
    (Passage.mapRowToMessage env db cid row).associatedMessageType
      = Passage.jsInt row.associated_message_type :=
  rfl

/-! ## Claim C2 -/

/-- Counterexample for C2 as stated: the reactions map is keyed on the
raw `guid` column, not on the page identifier `guid || String(rowid)`.
In `cexDB2` the regular row has guid `""` and rowid 5, so its page entry
is identified as `"5"` and a love-reaction targets `"5"`, yet the entry
receives no reactions — the folding property fails on that page. -/
theorem C2_reaction_folding_cex :
    ¬ (∀ msg ∈ (Passage.getMessages Passage.env0 Passage.cexDB2 1 100 none).1,
        Passage.isReactionMessage msg.associatedMessageType = false
        ∧ msg.reactions = Passage.specReactionsFor Passage.env0 Passage.cexDB2
            (Passage.fetchedRows Passage.cexDB2 1 100 none) msg.id) := by
  decide

/-- Claim C2 (amended): a row classified as a reaction never appears as a
standalone entry in the `getMessages` list and never as a conversation's
`lastMessage`; each page message's `reactions` list consists exactly of
the add-reaction rows (among the fetched rows) whose association id,
after stripping a `p:N/` or `bp:` prefix, equals the message's
identifier — remove-reaction rows contribute nothing. Stated for source
rows whose `guid` column is present and non-empty (the identifier the
lookup uses). -/
theorem C2_reaction_folding (env : Passage.Env) (db : Passage.DB)
    (chatId limit : Nat) (before : Option Nat)
    (hguid : ∀ m ∈ db.messages, Passage.guidTruthy m = true) :
    (∀ msg ∈ (Passage.getMessages env db chatId limit before).1,
      Passage.isReactionMessage msg.associatedMessageType = false
      ∧ msg.reactions = Passage.specReactionsFor env db
          (Passage.fetchedRows db chatId limit before) msg.id)
    ∧ (∀ conv ∈ Passage.getConversations env db, ∀ m,
        conv.lastMessage = some m →
        Passage.isReactionMessage m.associatedMessageType = false)
    ∧ (∀ cid conv, Passage.getConversation env db cid = some conv → ∀ m,
        conv.lastMessage = some m →
        Passage.isReactionMessage m.associatedMessageType = false) := by
  have hlast : ∀ chatId' m,
      Passage.getLastMessageForChat env db chatId' = some m →
      Passage.isReactionMessage m.associatedMessageType = false := by
    intro chatId' m hm
    rcases Passage.getLastMessageForChat_spec env db chatId' with ⟨h1, _⟩ |
      ⟨row, hrowmem, h2, _⟩
    · rw [h1] at hm; cases hm
    · rw [h2] at hm
      cases hm
      rw [Passage.mapRowToMessage_assocType]
      exact Passage.lastMessagePred_not_reaction
        (by simpa using List.of_mem_filter hrowmem)
  refine ⟨?_, ?_, ?_⟩
  · intro msg hmsg
    unfold Passage.getMessages at hmsg
    simp only [List.mem_reverse, List.mem_map] at hmsg
    obtain ⟨row, hrow, rfl⟩ := hmsg
    have hrowMem : row ∈ Passage.messageRowsOf db chatId limit before :=
      List.mem_of_mem_take hrow
    have hnotr : Passage.isReactionMessage row.associated_message_type
        = false := by
      simpa using List.of_mem_filter hrowMem
    have hdbmem : row ∈ db.messages :=
      Passage.mem_of_mem_messagesForChat
        (Passage.mem_of_mem_fetchedRows (List.mem_of_mem_filter hrowMem))
    have hgt := hguid row hdbmem
    rcases hgv : row.guid with _ | g
    · rw [Passage.guidTruthy, hgv] at hgt
      cases hgt
    · have hgne : g ≠ "" := by
        rw [Passage.guidTruthy, hgv] at hgt
        simpa using hgt
      constructor
      · rw [Passage.attachReactions_assocType,
          Passage.isReactionMessage_jsInt, hnotr]
      · rw [Passage.attachReactions_id]
        have hid : Passage.msgRowId row = g := by
          simp [Passage.msgRowId, Passage.jsStr, hgv, hgne]
        rw [hid]
        show (match row.guid with
          | some g =>
            (Passage.mapGet
              (Passage.buildReactionsMap env db
                (Passage.reactionRowsOf db chatId limit before)) g).getD []
          | none => []) = _
        rw [hgv]
        exact Passage.buildReactionsMap_spec env db chatId limit before g
  · intro conv hconv m hm
    obtain ⟨c, _, rfl⟩ := List.mem_map.mp hconv
    exact hlast c.rowid m (by simpa [Passage.buildConversation] using hm)
  · intro cid conv hconv m hm
    unfold Passage.getConversation at hconv
    rcases hf : db.chats.find? (fun c => c.rowid = cid) with _ | c <;>
      rw [hf] at hconv
    · cases hconv
    · cases hconv
      exact hlast c.rowid m (by simpa [Passage.buildConversation] using hm)

/-- Witness for C2: the spec's folding example — a chat whose rows are a
message `A` and a love-reaction `B` targeting it through `p:0/A`; every
row's guid is truthy, so the theorem applies. -/
theorem C2_reaction_folding_witness :
    (∀ m ∈ Passage.wDB2.messages, Passage.guidTruthy m = true)
    ∧ ((∀ msg ∈ (Passage.getMessages Passage.env0 Passage.wDB2 1 100 none).1,
        Passage.isReactionMessage msg.associatedMessageType = false
        ∧ msg.reactions = Passage.specReactionsFor Passage.env0 Passage.wDB2
            (Passage.fetchedRows Passage.wDB2 1 100 none) msg.id)
      ∧ (∀ conv ∈ Passage.getConversations Passage.env0 Passage.wDB2, ∀ m,
          conv.lastMessage = some m →
          Passage.isReactionMessage m.associatedMessageType = false)
      ∧ (∀ cid conv,
          Passage.getConversation Passage.env0 Passage.wDB2 cid = some conv →
          ∀ m, conv.lastMessage = some m →
          Passage.isReactionMessage m.associatedMessageType = false)) :=
  ⟨by decide,
   C2_reaction_folding Passage.env0 Passage.wDB2 1 100 none (by decide)⟩

/-! ## Helper lemmas for the pagination claim -/

/-- `getMessages` unfolded into its named pieces. -/
theorem Passage.getMessages_eq (env : Passage.Env) (db : Passage.DB)
    (chatId limit : Nat) (before : Option Nat) :
    Passage.getMessages env db chatId limit before
      = ((((Passage.messageRowsOf db chatId limit before).take limit).map
            (Passage.attachReactions env db
              (Passage.buildReactionsMap env db
                (Passage.reactionRowsOf db chatId limit before))
              (toString chatId))).reverse,
          decide (limit < (Passage.messageRowsOf db chatId limit before).length)) :=
  rfl

theorem Passage.attachReactions_timestamp (env : Passage.Env)
    (db : Passage.DB) (rmap : List (String × List Passage.Reaction))
    (cid : String) (row : Passage.MessageRow) :
    (Passage.attachReactions env db rmap cid row).timestamp
      = (Passage.mapRowToMessage env db cid row).timestamp :=
  rfl

/-- When the chat holds no more rows than the over-fetch cap, the `LIMIT`
clause truncates nothing: the fetched rows are all rows, newest first. -/
theorem Passage.fetchedRows_of_le (db : Passage.DB) (chatId limit : Nat)
    (h : (Passage.messagesForChat db chatId).length ≤ (limit + 1) * 3) :
    Passage.fetchedRows db chatId limit none
      = Passage.sortByDateDesc (Passage.messagesForChat db chatId) := by
  unfold Passage.fetchedRows
  exact List.take_of_length_le
    (by rw [Passage.sortByDateDesc, List.length_insertionSort]; exact h)

/-- The regular partition of the whole chat is a permutation of the
chat's non-reaction rows. -/
theorem Passage.sorted_filter_perm_nonReaction (db : Passage.DB)
    (chatId : Nat) :
    ((Passage.sortByDateDesc (Passage.messagesForChat db chatId)).filter
        (fun m => !Passage.isReactionMessage m.associated_message_type)).Perm
      (Passage.nonReactionRows db chatId) := by
  unfold Passage.sortByDateDesc Passage.nonReactionRows
  exact (List.perm_insertionSort _ _).filter _

/-- The regular partition of the whole chat is date-sorted, newest
first. -/
theorem Passage.sorted_filter_pairwise (db : Passage.DB) (chatId : Nat) :
    ((Passage.sortByDateDesc (Passage.messagesForChat db chatId)).filter
        (fun m => !Passage.isReactionMessage m.associated_message_type)).Pairwise
      (fun a b => Passage.dateKey b.date ≤ Passage.dateKey a.date) := by
  haveI : IsTotal Passage.MessageRow
      (fun a b => Passage.dateKey b.date ≤ Passage.dateKey a.date) :=
    ⟨fun a b => le_total _ _⟩
  haveI : IsTrans Passage.MessageRow
      (fun a b => Passage.dateKey b.date ≤ Passage.dateKey a.date) :=
    ⟨fun _ _ _ h1 h2 => le_trans h2 h1⟩
  unfold Passage.sortByDateDesc
  exact List.Pairwise.filter _ (List.sorted_insertionSort _ _)

/-- The timestamp conversion is monotone over rows with present non-zero
dates. -/
theorem Passage.timestamp_mono (env : Passage.Env) (db : Passage.DB)
    (cid : String) {a b : Passage.MessageRow}
    (ha : Passage.dateOk a = true) (hb : Passage.dateOk b = true)
    (hab : Passage.dateKey b.date ≤ Passage.dateKey a.date) :
    (Passage.mapRowToMessage env db cid b).timestamp
      ≤ (Passage.mapRowToMessage env db cid a).timestamp := by
  rcases hda : a.date with _ | da
  · rw [Passage.dateOk, hda] at ha; cases ha
  · rcases hdb : b.date with _ | db'
    · rw [Passage.dateOk, hdb] at hb; cases hb
    · have hza : da ≠ 0 := by
        rw [Passage.dateOk, hda] at ha; simpa using ha
      have hzb : db' ≠ 0 := by
        rw [Passage.dateOk, hdb] at hb; simpa using hb
      rw [hda, hdb, Passage.dateKey, Passage.dateKey] at hab
      have hle : db' ≤ da := by exact_mod_cast hab
      show (match Passage.jsNat b.date with
        | some d => Passage.jsTimestamp d
        | none => env.now)
        ≤ (match Passage.jsNat a.date with
        | some d => Passage.jsTimestamp d
        | none => env.now)
      rw [hda, hdb]
      simp only [Passage.jsNat, if_neg hza, if_neg hzb]
      exact Passage.jsTimestamp_mono db' da (Nat.pos_of_ne_zero hzb) hle

/-! ## Claim C1 -/

/-- Counterexample to claim C1 as stated: the fixture conversation has
exactly `N = 2` non-reaction messages, but because its five reaction
rows exhaust the `(limit + 1) * 3` over-fetch window of
`getMessages(id, limit = N - 1 = 1)`, only one regular row is fetched
and `hasMore` comes back `false`, where the claim requires `true`. -/
theorem C1_pagination_boundary_cex :
    (Passage.nonReactionRows Passage.cexDB1 1).length = 2
    ∧ (Passage.getMessages Passage.env0 Passage.cexDB1 1 (2 - 1) none).2
        = false := by
  constructor
  · decide
  · decide

/-- Claim C1, amended: for a conversation with exactly `N ≥ 1`
non-reaction messages whose total row count (reaction rows included) is
at most `3 * N` — so that the over-fetch window covers the whole
conversation — and whose rows all carry present non-zero timestamps,
`getMessages(id, N)` returns all `N` messages with `hasMore = false` in
chronological (oldest-first) order, and `getMessages(id, N - 1)` returns
`hasMore = true` and exactly the `N - 1` newest messages (the full page
minus its oldest entry), oldest-first. -/
theorem C1_pagination_boundary (env : Passage.Env) (db : Passage.DB)
    (chatId N : Nat) (hN : 1 ≤ N)
    (hreg : (Passage.nonReactionRows db chatId).length = N)
    (hfetch : (Passage.messagesForChat db chatId).length ≤ 3 * N)
    (hdate : ∀ m ∈ Passage.messagesForChat db chatId,
      Passage.dateOk m = true) :
    (Passage.getMessages env db chatId N none).2 = false
    ∧ (Passage.getMessages env db chatId N none).1.length = N
    ∧ ((Passage.getMessages env db chatId N none).1.map
        Passage.Message.id).Perm
        ((Passage.nonReactionRows db chatId).map Passage.msgRowId)
    ∧ ((Passage.getMessages env db chatId N none).1.map
        Passage.Message.timestamp).Pairwise (· ≤ ·)
    ∧ (Passage.getMessages env db chatId (N - 1) none).2 = true
    ∧ (Passage.getMessages env db chatId (N - 1) none).1.length = N - 1
    ∧ (Passage.getMessages env db chatId (N - 1) none).1
        = (Passage.getMessages env db chatId N none).1.drop 1 := by
  set mr := (Passage.sortByDateDesc (Passage.messagesForChat db chatId)).filter
      (fun m => !Passage.isReactionMessage m.associated_message_type) with hmr
  obtain ⟨f, hfdef⟩ : ∃ f, f = Passage.attachReactions env db
      (Passage.buildReactionsMap env db
        (Passage.reactionRowsOf db chatId N none)) (toString chatId) :=
    ⟨_, rfl⟩
  have hcap1 : (Passage.messagesForChat db chatId).length ≤ (N + 1) * 3 := by
    omega
  have hcap2 : (Passage.messagesForChat db chatId).length
      ≤ (N - 1 + 1) * 3 := by omega
  have hf1 := Passage.fetchedRows_of_le db chatId N hcap1
  have hf2 := Passage.fetchedRows_of_le db chatId (N - 1) hcap2
  have hfeq : Passage.fetchedRows db chatId (N - 1) none
      = Passage.fetchedRows db chatId N none := by rw [hf1, hf2]
  have hreq : Passage.reactionRowsOf db chatId (N - 1) none
      = Passage.reactionRowsOf db chatId N none := by
    unfold Passage.reactionRowsOf
    rw [hfeq]
  have hm1 : Passage.messageRowsOf db chatId N none = mr := by
    unfold Passage.messageRowsOf
    rw [hf1, hmr]
  have hm2 : Passage.messageRowsOf db chatId (N - 1) none = mr := by
    unfold Passage.messageRowsOf
    rw [hf2, hmr]
  have hperm : mr.Perm (Passage.nonReactionRows db chatId) := by
    rw [hmr]
    exact Passage.sorted_filter_perm_nonReaction db chatId
  have hlen : mr.length = N := by rw [hperm.length_eq, hreg]
  have htake : mr.take N = mr := List.take_of_length_le (by rw [hlen])
  have hsorted' : mr.Pairwise
      (fun a b => Passage.dateKey b.date ≤ Passage.dateKey a.date) := by
    rw [hmr]
    exact Passage.sorted_filter_pairwise db chatId
  have hsubmem : ∀ x ∈ mr, x ∈ Passage.messagesForChat db chatId := by
    intro x hx
    rw [hmr] at hx
    have hx' := List.mem_of_mem_filter hx
    unfold Passage.sortByDateDesc at hx'
    exact (List.perm_insertionSort _ _).subset hx'
  have hfull1 : (Passage.getMessages env db chatId N none).1
      = (mr.map f).reverse := by
    rw [Passage.getMessages_eq]
    dsimp only
    rw [hm1, htake, hfdef]
  have hfull2 : (Passage.getMessages env db chatId N none).2
      = decide (N < mr.length) := by
    rw [Passage.getMessages_eq]
    dsimp only
    rw [hm1]
  have hpage1 : (Passage.getMessages env db chatId (N - 1) none).1
      = ((mr.take (N - 1)).map f).reverse := by
    rw [Passage.getMessages_eq]
    dsimp only
    rw [hm2, hreq, hfdef]
  have hpage2 : (Passage.getMessages env db chatId (N - 1) none).2
      = decide (N - 1 < mr.length) := by
    rw [Passage.getMessages_eq]
    dsimp only
    rw [hm2]
  refine ⟨?_, ?_, ?_, ?_, ?_, ?_, ?_⟩
  · rw [hfull2, hlen]
    simp
  · rw [hfull1]
    simp [hlen]
  · rw [hfull1, List.map_reverse, List.map_map]
    have hcomp : mr.map (Passage.Message.id ∘ f) = mr.map Passage.msgRowId :=
      List.map_congr_left (fun a _ => by
        rw [Function.comp_apply, hfdef, Passage.attachReactions_id])
    rw [hcomp]
    exact (List.reverse_perm _).trans (hperm.map _)
  · rw [hfull1, List.map_reverse, List.map_map, List.pairwise_reverse,
      List.pairwise_map]
    refine hsorted'.imp_of_mem ?_
    intro a b ha hb hab
    have hta := hdate a (hsubmem a ha)
    have htb := hdate b (hsubmem b hb)
    show (Passage.Message.timestamp ∘ f) b ≤ (Passage.Message.timestamp ∘ f) a
    rw [Function.comp_apply, Function.comp_apply, hfdef,
      Passage.attachReactions_timestamp, Passage.attachReactions_timestamp]
    exact Passage.timestamp_mono env db (toString chatId) hta htb hab
  · rw [hpage2, hlen]
    simp
    omega
  · rw [hpage1]
    simp [hlen]
  · rw [hpage1, hfull1, List.map_take, List.reverse_take]
    congr 1
    rw [List.length_map, hlen]
    omega

/-- Witness for C1 (amended): the reaction-free two-message fixture
satisfies every hypothesis at `N = 2`. -/
theorem C1_pagination_boundary_witness :
    (1 ≤ 2
      ∧ (Passage.nonReactionRows Passage.wDB1 1).length = 2
      ∧ (Passage.messagesForChat Passage.wDB1 1).length ≤ 3 * 2
      ∧ ∀ m ∈ Passage.messagesForChat Passage.wDB1 1,
          Passage.dateOk m = true)
    ∧ ((Passage.getMessages Passage.env0 Passage.wDB1 1 2 none).2 = false
      ∧ (Passage.getMessages Passage.env0 Passage.wDB1 1 2 none).1.length = 2
      ∧ ((Passage.getMessages Passage.env0 Passage.wDB1 1 2 none).1.map
          Passage.Message.id).Perm
          ((Passage.nonReactionRows Passage.wDB1 1).map Passage.msgRowId)
      ∧ ((Passage.getMessages Passage.env0 Passage.wDB1 1 2 none).1.map
          Passage.Message.timestamp).Pairwise (· ≤ ·)
      ∧ (Passage.getMessages Passage.env0 Passage.wDB1 1 (2 - 1) none).2 = true
      ∧ (Passage.getMessages Passage.env0 Passage.wDB1 1 (2 - 1) none).1.length
          = 2 - 1
      ∧ (Passage.getMessages Passage.env0 Passage.wDB1 1 (2 - 1) none).1
          = (Passage.getMessages Passage.env0 Passage.wDB1 1 2 none).1.drop 1) :=
  ⟨⟨by decide, by decide, by decide, by decide⟩,
   C1_pagination_boundary Passage.env0 Passage.wDB1 1 2 (by decide) (by decide)
     (by decide) (by decide)⟩

/-! ## Claim C5 -/

/-- Counterexample to claim C5 as stated: `getConversations` orders by
`MAX(m.date)` over all rows including reaction rows, so the fixture's
chat 1 (old message, very recent reaction) is listed before chat 2
although chat 1's last non-reaction message is older — the output is not
sorted descending by last-message timestamp. -/
theorem C5_conversation_ordering_cex :
    (Passage.getConversations Passage.env0 Passage.cexDB5).map
        Passage.convLastTimestamp = [978307200010, 978307200050]
    ∧ ¬ ((Passage.getConversations Passage.env0 Passage.cexDB5).Pairwise
        (fun a b =>
          Passage.convLastTimestamp b ≤ Passage.convLastTimestamp a)) := by
  constructor
  · decide
  · decide

/-- Claim C5, amended: `getConversations` returns the conversations
sorted in descending order of the maximum raw timestamp over all their
message rows, reaction rows included; every conversation with no message
rows is excluded; and each conversation's `lastMessage` is its most
recent row whose association code is absent or outside 2000-3005 (null
when it has no such row). -/
theorem C5_conversation_ordering (env : Passage.Env) (db : Passage.DB) :
    List.Pairwise (fun a b => Passage.chatKey db b ≤ Passage.chatKey db a)
      (Passage.conversationChats db)
    ∧ (Passage.getConversations env db).map Passage.Conversation.id
        = (Passage.conversationChats db).map (fun c => toString c.rowid)
    ∧ (∀ conv ∈ Passage.getConversations env db, ∃ c ∈ db.chats,
        conv.id = toString c.rowid
        ∧ Passage.messagesForChat db c.rowid ≠ []
        ∧ conv.lastMessage = Passage.getLastMessageForChat env db c.rowid)
    ∧ (∀ chatId,
        ((Passage.messagesForChat db chatId).filter Passage.lastMessagePred
            = [] →
          Passage.getLastMessageForChat env db chatId = none)
        ∧ (∀ m, Passage.getLastMessageForChat env db chatId = some m →
            ∃ row ∈ (Passage.messagesForChat db chatId).filter
                Passage.lastMessagePred,
              m = Passage.mapRowToMessage env db (toString chatId) row
              ∧ ∀ r ∈ (Passage.messagesForChat db chatId).filter
                  Passage.lastMessagePred,
                  Passage.dateKey r.date ≤ Passage.dateKey row.date)) := by
  haveI : IsTotal Passage.ChatRow
      (fun a b => Passage.chatKey db b ≤ Passage.chatKey db a) :=
    ⟨fun a b => le_total _ _⟩
  haveI : IsTrans Passage.ChatRow
      (fun a b => Passage.chatKey db b ≤ Passage.chatKey db a) :=
    ⟨fun _ _ _ h1 h2 => le_trans h2 h1⟩
  refine ⟨?_, ?_, ?_, ?_⟩
  · unfold Passage.conversationChats
    exact List.sorted_insertionSort _ _
  · unfold Passage.getConversations
    rw [List.map_map]
    exact List.map_congr_left (fun c _ => rfl)
  · intro conv hconv
    obtain ⟨c, hc, rfl⟩ := List.mem_map.mp hconv
    have hcfilter : c ∈ db.chats.filter
        (fun c => (Passage.maxDate (Passage.messagesForChat db c.rowid)).isSome) := by
      unfold Passage.conversationChats at hc
      exact (List.perm_insertionSort _ _).subset hc
    refine ⟨c, List.mem_of_mem_filter hcfilter, rfl, ?_, rfl⟩
    intro hnil
    have hsome := List.of_mem_filter hcfilter
    rw [hnil] at hsome
    simp [Passage.maxDate] at hsome
  · intro chatId
    constructor
    · intro hnil
      rcases Passage.getLastMessageForChat_spec env db chatId with ⟨h1, _⟩ |
        ⟨row, hrowmem, _, _⟩
      · exact h1
      · rw [hnil] at hrowmem
        cases hrowmem
    · intro m hm
      rcases Passage.getLastMessageForChat_spec env db chatId with ⟨h1, _⟩ |
        ⟨row, hrowmem, h2, hmax⟩
      · rw [h1] at hm
        cases hm
      · rw [h2] at hm
        cases hm
        exact ⟨row, hrowmem, rfl, hmax⟩

/-- Witness for C5 (amended): chat id 3 has no rows in the fixture, so
its last message is null. -/
theorem C5_conversation_ordering_witness :
    (Passage.messagesForChat Passage.cexDB5 3).filter Passage.lastMessagePred
        = []
    ∧ Passage.getLastMessageForChat Passage.env0 Passage.cexDB5 3 = none :=
  ⟨by decide,
   ((C5_conversation_ordering Passage.env0 Passage.cexDB5).2.2.2 3).1
     (by decide)⟩
